import Mathlib

/-! P2P-Live: reliable-UDP multiplexer and cooperative dispatcher.

A shallow embedding of `lib/net/rudp.cc` (class `rudp_impl_t`) and of
`lib/net/execute_dispatcher.cc` (class `execute_thread_dispatcher_t`).

* The endpoint registry `user_map` (an `unordered_map` of `unordered_map`s of
  owned endpoints) is an association list of association lists; a pointer to
  an endpoint is its key `(address, channel)`, dereferenced by `lookup` and
  written through by `map_set`.
* The ARQ core (`net/third/ikcp.hpp`) and the event loop's timer interface are
  not part of the sources at hand.  Their entry points are taken as
  parameters (`ikcp_t`, `event_loop_t`), so every theorem holds for every
  implementation of them.
* `get_current_time()` is an argument of the function that reads it.
* Unsigned 64-bit and 32-bit arithmetic is arithmetic on `Nat` modulo `U64`
  and `U32`.
-/

namespace net

/-! ## Data model -/

/-- Modulus of `u64` arithmetic (`microsecond_t`). -/
def U64 : Nat := 2 ^ 64

/-- Modulus of `IUINT32` arithmetic (the ARQ core's millisecond clock). -/
def U32 : Nat := 2 ^ 32

abbrev socket_addr_t := Nat

abbrev microsecond_t := Nat

structure rudp_connection_t where
  address : socket_addr_t
  channel : Int
deriving DecidableEq, Repr

/-- The `timer_registered_t` of `net/timer.hpp`: `id < 0` means no timer. -/
structure timer_registered_t where
  id : Int
  timepoint : microsecond_t
deriving DecidableEq, Repr

/-- Modelled from the spec: `socket_buffer_t` (its header is not among the
sources).  A byte buffer with a walk pointer that `walk_step` advances and a
mark that `finish_walk` sets ("mark buffer consumed"). -/
structure socket_buffer_t where
  data : List Nat
  walk_offset : Nat
  walk_finished : Bool
deriving DecidableEq, Repr

def socket_buffer_t.walk_step (b : socket_buffer_t) (n : Nat) : socket_buffer_t :=
  { b with walk_offset := b.walk_offset + n }

def socket_buffer_t.finish_walk (b : socket_buffer_t) : socket_buffer_t :=
  { b with walk_finished := true }

/-- Modelled from the spec: the final results of a cooperative I/O operation. -/
inductive io_result where
  | ok
  | timeout
  | failed
deriving DecidableEq, Repr

/-- The `co::async_result_t<io_result>`: `none` is the pending marker that the
source writes `return {}`. -/
abbrev async_result_t := Option io_result

/-- The `rudp_endpoint_t`.  `ikcp = none` is the null pointer (ARQ state
released).  `econtext` is the event loop the execute context is pinned to.
The two spinlocks and the back pointer `impl` carry no data. -/
structure rudp_endpoint_t (K : Type) where
  remote_address : socket_addr_t
  ikcp : Option K
  channel : Int
  last_alive : microsecond_t
  inactive_timeout : microsecond_t
  timer_reg : timer_registered_t
  wait_for_io : Bool
  is_closing : Bool
  econtext : Nat
  recv_queue : List socket_buffer_t
deriving DecidableEq, Repr

/-- Entry points of the ARQ core (`ikcp_*`), which live in the third-party
header `net/third/ikcp.hpp`.  Each takes the control block and returns the
control block it leaves behind together with its C return value.
`ikcp_check` takes and returns an `IUINT32`. -/
structure ikcp_t (K : Type) where
  ikcp_create : Int → K
  ikcp_wndsize : K → Int → Int → K
  ikcp_nodelay : K → Int → Int → Int → Int → K
  ikcp_send : K → socket_buffer_t → Int × K
  ikcp_input : K → socket_buffer_t → Int × K
  ikcp_recv : K → socket_buffer_t → Int × K
  ikcp_check : K → Nat → Nat
  ikcp_update : K → Nat → K
  ikcp_waitsnd : K → Int

/-- Timer interface of the event loops (`add_timer(make_timer(delay, cb))` and
`remove_timer(handle)`), on the state `L` of all loops; the first argument
after the state is the loop addressed. -/
structure event_loop_t (L : Type) where
  add_timer : L → Nat → microsecond_t → timer_registered_t × L
  remove_timer : L → Nat → timer_registered_t → L

abbrev chan_map_t (K : Type) := List (Int × rudp_endpoint_t K)

abbrev user_map_t (K : Type) := List (socket_addr_t × chan_map_t K)

/-- The `rudp_impl_t`: registry, socket pointer (`none` is null), `base_time`,
and the timers of the event loops. -/
structure rudp_impl_t (K L : Type) where
  user_map : user_map_t K
  socket : Option Nat
  base_time : microsecond_t
  loops : L
deriving DecidableEq, Repr

/-! ## Registry primitives -/

/-- Inner `unordered_map::find(channel)`. -/
def chan_find {K : Type} : chan_map_t K → Int → Option (rudp_endpoint_t K)
  | [], _ => none
  | (c, e) :: t, ch => if c = ch then some e else chan_find t ch

/-- Outer `unordered_map::find(address)`. -/
def addr_find {K : Type} : user_map_t K → socket_addr_t → Option (chan_map_t K)
  | [], _ => none
  | (a, m) :: t, addr => if a = addr then some m else addr_find t addr

/-- The two nested `find`s of the source, giving the stored endpoint whatever
its ARQ state: the raw pointer `it2->second.get()`. -/
def lookup {K : Type} (um : user_map_t K) (addr : socket_addr_t) (ch : Int) :
    Option (rudp_endpoint_t K) :=
  match addr_find um addr with
  | none => none
  | some m => chan_find m ch

def chan_set {K : Type} : chan_map_t K → Int → rudp_endpoint_t K → chan_map_t K
  | [], _, _ => []
  | (c, e) :: t, ch, e1 => if c = ch then (c, e1) :: t else (c, e) :: chan_set t ch e1

/-- Write through an endpoint pointer obtained by `lookup`. -/
def map_set {K : Type} : user_map_t K → socket_addr_t → Int → rudp_endpoint_t K → user_map_t K
  | [], _, _, _ => []
  | (a, m) :: t, addr, ch, e1 =>
    if a = addr then (a, chan_set m ch e1) :: t else (a, m) :: map_set t addr ch e1

/-- The `rudp_impl_t::find` (both overloads have this body): an endpoint whose
`ikcp` is null is reported as absent. -/
def find {K L : Type} (s : rudp_impl_t K L) (addr : socket_addr_t) (ch : Int) :
    Option (rudp_endpoint_t K) :=
  match lookup s.user_map addr ch with
  | none => none
  | some i => if i.ikcp.isNone then none else some i

def find_conn {K L : Type} (s : rudp_impl_t K L) (conn : rudp_connection_t) :
    Option (rudp_endpoint_t K) :=
  find s conn.address conn.channel

/-! ## Timer re-arming and endpoint update -/

/-- The `rudp_impl_t::set_timer` at current time `cur`.  `kcp_cur` and `delta`
are `u64`; `next_tick_time` has the `IUINT32` type of `ikcp_check`, whose
argument is truncated likewise.  With a null `ikcp` the source dereferences a
null pointer; the model then leaves everything as it is. -/
def set_timer {K L : Type} (arq : ikcp_t K) (ev : event_loop_t L) (base_time cur : microsecond_t)
    (ep : rudp_endpoint_t K) (l : L) : rudp_endpoint_t K × L :=
  match ep.ikcp with
  | none => (ep, l)
  | some k =>
    let kcp_cur := ((cur + U64 - base_time) % U64) / 1000
    let checked := arq.ikcp_check k (kcp_cur % U32) % U32
    let next_tick_time := if checked < kcp_cur then kcp_cur % U32 else checked
    let delta := ((next_tick_time + U64 - kcp_cur % U64) % U64 * 1000) % U64
    let time_point := (delta + cur + base_time) % U64
    if 0 ≤ ep.timer_reg.id ∧ ep.timer_reg.timepoint ≤ (time_point + 5000) % U64 ∧
        (time_point + U64 - 5000) % U64 ≤ ep.timer_reg.timepoint then
      (ep, l)
    else
      let l1 := if 0 ≤ ep.timer_reg.id then ev.remove_timer l ep.econtext ep.timer_reg else l
      let r := ev.add_timer l1 ep.econtext delta
      ({ ep with timer_reg := r.1 }, r.2)

/-- The loop of `rudp_impl_t::update_endpoint` on the ARQ control block and
the receive queue: feed the front datagram; pop it when `ikcp_input`
returns `>= 0`, otherwise stop with the datagram still at the front. -/
def drain_queue {K : Type} (arq : ikcp_t K) : K → List socket_buffer_t → K × List socket_buffer_t
  | k, [] => (k, [])
  | k, d :: rest =>
    if 0 ≤ (arq.ikcp_input k d).1 then drain_queue arq (arq.ikcp_input k d).2 rest
    else ((arq.ikcp_input k d).2, d :: rest)

/-- The `rudp_impl_t::update_endpoint`.  Every caller holds an endpoint with a
live `ikcp`; with a null one the model leaves the endpoint as it is. -/
def update_endpoint {K : Type} (arq : ikcp_t K) (ep : rudp_endpoint_t K) : rudp_endpoint_t K :=
  match ep.ikcp with
  | none => ep
  | some k =>
    let r := drain_queue arq k ep.recv_queue
    { ep with ikcp := some r.1, recv_queue := r.2 }

/-! ## Cooperative I/O -/

/-- The `rudp_impl_t::awrite`.  The leading `assert` on the buffer length is a
debug-build check and does not take part in the result.  Returns the result,
the multiplexer state and the buffer of the caller.  `find` only returns
endpoints with a live `ikcp`, so the `none` arm of the inner `match` is never
taken. -/
def awrite {K L : Type} (arq : ikcp_t K) (ev : event_loop_t L) (cur : microsecond_t)
    (s : rudp_impl_t K L) (is_stop : Bool) (conn : rudp_connection_t) (buffer : socket_buffer_t) :
    async_result_t × rudp_impl_t K L × socket_buffer_t :=
  match find_conn s conn with
  | none => (some io_result.failed, s, buffer)
  | some endpoint =>
    if is_stop then
      (some io_result.timeout,
        { s with user_map := map_set s.user_map conn.address conn.channel
                   { endpoint with wait_for_io := false } },
        buffer.finish_walk)
    else
      match endpoint.ikcp with
      | none => (some io_result.failed, s, buffer)
      | some pcb =>
        let r := arq.ikcp_send pcb buffer
        if 0 ≤ r.1 then
          let t := set_timer arq ev s.base_time cur { endpoint with ikcp := some r.2 } s.loops
          (some io_result.ok,
            { s with user_map := map_set s.user_map conn.address conn.channel
                       { t.1 with wait_for_io := false },
                     loops := t.2 },
            buffer.finish_walk)
        else
          (none,
            { s with user_map := map_set s.user_map conn.address conn.channel
                       { endpoint with ikcp := some r.2, wait_for_io := true } },
            buffer)

/-- The `rudp_impl_t::aread`.  The bytes `ikcp_recv` copies into the buffer
are not modelled, only the walk pointer.  As in `awrite` the `none` arm of the
inner `match` is never taken. -/
def aread {K L : Type} (arq : ikcp_t K) (ev : event_loop_t L) (cur : microsecond_t)
    (s : rudp_impl_t K L) (is_stop : Bool) (conn : rudp_connection_t) (buffer : socket_buffer_t) :
    async_result_t × rudp_impl_t K L × socket_buffer_t :=
  match find_conn s conn with
  | none => (some io_result.failed, s, buffer)
  | some endpoint =>
    let e1 := update_endpoint arq { endpoint with wait_for_io := true }
    if is_stop then
      (some io_result.timeout,
        { s with user_map := map_set s.user_map conn.address conn.channel
                   { e1 with wait_for_io := false } },
        buffer.finish_walk)
    else
      match e1.ikcp with
      | none => (some io_result.failed, s, buffer)
      | some pcb =>
        let r := arq.ikcp_recv pcb buffer
        let t := set_timer arq ev s.base_time cur { e1 with ikcp := some r.2 } s.loops
        if 0 ≤ r.1 then
          (some io_result.ok,
            { s with user_map := map_set s.user_map conn.address conn.channel
                       { t.1 with wait_for_io := false },
                     loops := t.2 },
            (buffer.walk_step r.1.toNat).finish_walk)
        else
          (none,
            { s with user_map := map_set s.user_map conn.address conn.channel t.1,
                     loops := t.2 },
            buffer)

/-! ## Configuration and registration -/

/-- The `rudp_impl_t::config`. -/
def config {K L : Type} (arq : ikcp_t K) (s : rudp_impl_t K L) (conn : rudp_connection_t)
    (level : Int) : rudp_impl_t K L :=
  match find_conn s conn with
  | none => s
  | some endpoint =>
    match endpoint.ikcp with
    | none => s
    | some k =>
      let k1 :=
        if level = 0 then arq.ikcp_nodelay k 1 10 2 1
        else if level = 1 then arq.ikcp_nodelay k 1 20 3 1
        else arq.ikcp_nodelay k 0 50 0 0
      { s with user_map := map_set s.user_map conn.address conn.channel
                 { endpoint with ikcp := some k1 } }

/-- Inner `unordered_map::emplace(channel, endpoint)`: nothing is inserted when
the key is already present. -/
def chan_emplace {K : Type} : chan_map_t K → Int → rudp_endpoint_t K → chan_map_t K
  | [], ch, e1 => [(ch, e1)]
  | (c, e) :: t, ch, e1 => if c = ch then (c, e) :: t else (c, e) :: chan_emplace t ch e1

/-- The statement `user_map[addr].emplace(channel, std::move(endpoint))`:
`operator[]` creates the inner map when the address is new. -/
def map_emplace {K : Type} :
    user_map_t K → socket_addr_t → Int → rudp_endpoint_t K → user_map_t K
  | [], addr, ch, e1 => [(addr, [(ch, e1)])]
  | (a, m) :: t, addr, ch, e1 =>
    if a = addr then (a, chan_emplace m ch e1) :: t else (a, m) :: map_emplace t addr ch e1

/-- The sweep at the end of the locked block of `add_connection`: erase every
endpoint whose `ikcp` is null, then every address left without a channel. -/
def sweep {K : Type} (um : user_map_t K) : user_map_t K :=
  (um.map (fun p => (p.1, p.2.filter (fun q => q.2.ikcp.isSome)))).filter
    (fun p => !p.2.isEmpty)

/-- The `rudp_impl_t::add_connection`; `loop` is the event loop that
`context->select_loop()` picks.  `make_unique<rudp_endpoint_t>()`
value-initialises the fields the function does not assign.  The coroutine
handed to `econtext.run` is only scheduled here, so `co_func` does not take
part in the state the call leaves. -/
def add_connection {K L : Type} (arq : ikcp_t K) (s : rudp_impl_t K L) (addr : socket_addr_t)
    (channel : Int) (inactive_timeout : microsecond_t) (loop : Nat) : rudp_impl_t K L :=
  match find s addr channel with
  | some _ => s
  | none =>
    let pcb := arq.ikcp_wndsize (arq.ikcp_create channel) 128 128
    let endpoint : rudp_endpoint_t K :=
      { remote_address := addr, ikcp := some pcb, channel := channel, last_alive := 0,
        inactive_timeout := inactive_timeout, timer_reg := { id := -1, timepoint := 0 },
        wait_for_io := false, is_closing := false, econtext := loop, recv_queue := [] }
    let s1 : rudp_impl_t K L :=
      { s with user_map := sweep (map_emplace s.user_map addr channel endpoint) }
    config arq s1 { address := addr, channel := channel } 1

/-! ## Closing -/

/-- What resumes an endpoint coroutine suspended in `econtext.stop()`.
`timer_fired` is the callback that `set_timer` registers (`start_with` of
`update_endpoint`, `ikcp_update` at time `t_update`, `set_timer` at time
`t_set`); `datagram` is the ingress loop (`last_alive = now`, push on
`recv_queue`, `start`).  `cur` is the time the resumed code reads next. -/
inductive wakeup_t where
  | timer_fired (t_update t_set cur : microsecond_t)
  | datagram (now : microsecond_t) (d : socket_buffer_t) (cur : microsecond_t)
deriving DecidableEq, Repr

def wakeup_t.cur_time : wakeup_t → microsecond_t
  | timer_fired _ _ cur => cur
  | datagram _ _ cur => cur

/-- Effect of a wakeup on the endpoint and the loops. -/
def wakeup {K L : Type} (arq : ikcp_t K) (ev : event_loop_t L) (base_time : microsecond_t)
    (w : wakeup_t) (ep : rudp_endpoint_t K) (l : L) : rudp_endpoint_t K × L :=
  match w with
  | wakeup_t.timer_fired t_update t_set _ =>
    let e1 := update_endpoint arq ep
    let e2 : rudp_endpoint_t K :=
      { e1 with ikcp := e1.ikcp.map
                  (fun k => arq.ikcp_update k ((((t_update + U64 - base_time) % U64) / 1000) % U32)) }
    set_timer arq ev base_time t_set e2 l
  | wakeup_t.datagram now d _ =>
    ({ ep with last_alive := now, recv_queue := ep.recv_queue ++ [d] }, l)

/-- The `ikcp_waitsnd(endpoint->ikcp)` of the drain loop. -/
def waitsnd {K : Type} (arq : ikcp_t K) (ep : rudp_endpoint_t K) : Int :=
  match ep.ikcp with
  | none => 0
  | some k => arq.ikcp_waitsnd k

/-- The `while (1)` loop of `aclose_connection`.  Each round that finds unsent
data arms the timer at time `cur`, sets `wait_for_io` and suspends in
`econtext.stop()`; the next wakeup of the list resumes it.  The flag returned
is `true` when the loop was left by `break` and `false` when the wakeups ran
out with the coroutine still suspended. -/
def drain_send {K L : Type} (arq : ikcp_t K) (ev : event_loop_t L) (base_time : microsecond_t) :
    microsecond_t → List wakeup_t → rudp_endpoint_t K → L → (rudp_endpoint_t K × L) × Bool
  | cur, ws, ep, l =>
    if waitsnd arq ep ≤ 0 then ((ep, l), true)
    else
      let t := set_timer arq ev base_time cur ep l
      let e1 : rudp_endpoint_t K := { t.1 with wait_for_io := true }
      match ws with
      | [] => ((e1, t.2), false)
      | w :: rest =>
        let r := wakeup arq ev base_time w e1 t.2
        drain_send arq ev base_time w.cur_time rest r.1 r.2

/-- The `rudp_impl_t::aclose_connection` on the endpoint pointed to.  The flag
returned tells whether the call has returned (`true`) or is still suspended in
its drain loop (`false`). -/
def aclose_connection {K L : Type} (arq : ikcp_t K) (ev : event_loop_t L)
    (base_time : microsecond_t) (fast_close : Bool) (cur : microsecond_t) (ws : List wakeup_t)
    (endpoint : rudp_endpoint_t K) (l : L) : (rudp_endpoint_t K × L) × Bool :=
  if endpoint.is_closing then ((endpoint, l), true)
  else
    let e1 : rudp_endpoint_t K := { endpoint with is_closing := true }
    let r := if fast_close then ((e1, l), true) else drain_send arq ev base_time cur ws e1 l
    if r.2 then
      let e2 : rudp_endpoint_t K := { r.1.1 with ikcp := none }
      if 0 ≤ e2.timer_reg.id then
        (({ e2 with timer_reg := { e2.timer_reg with id := -1 } },
          ev.remove_timer r.1.2 e2.econtext e2.timer_reg), true)
      else ((e2, r.1.2), true)
    else r

/-- The `rudp_impl_t::remove_connection`, with the flag of `aclose_connection`. -/
def remove_connection {K L : Type} (arq : ikcp_t K) (ev : event_loop_t L) (cur : microsecond_t)
    (ws : List wakeup_t) (s : rudp_impl_t K L) (addr : socket_addr_t) (channel : Int) :
    rudp_impl_t K L × Bool :=
  match find s addr channel with
  | none => (s, true)
  | some endpoint =>
    let r := aclose_connection arq ev s.base_time false cur ws endpoint s.loops
    ({ s with user_map := map_set s.user_map addr channel r.1.1, loops := r.1.2 }, r.2)

/-- Body of the inner loop of `close_all_peer` for one endpoint; `current` is
`event_loop_t::current()`.  On another loop the removal is posted to that loop
and awaited, and only on that path `timer_reg.id` is reset.  The caller resets
`timer_reg.id` right after posting, and the posted closure reads
`endpoint->timer_reg` when it runs, so `remove_timer` is given the handle with
`id` already -1. -/
def release_peer {K L : Type} (ev : event_loop_t L) (current : Nat) (ep : rudp_endpoint_t K)
    (l : L) : rudp_endpoint_t K × L :=
  match ep.ikcp with
  | none => (ep, l)
  | some _ =>
    if 0 ≤ ep.timer_reg.id then
      if ep.econtext = current then
        ({ ep with ikcp := none }, ev.remove_timer l ep.econtext ep.timer_reg)
      else
        ({ ep with ikcp := none, timer_reg := { ep.timer_reg with id := -1 } },
          ev.remove_timer l ep.econtext { ep.timer_reg with id := -1 })
    else ({ ep with ikcp := none }, l)

def release_chan {K L : Type} (ev : event_loop_t L) (current : Nat) :
    chan_map_t K → L → chan_map_t K × L
  | [], l => ([], l)
  | (c, e) :: t, l =>
    let r := release_peer ev current e l
    let r2 := release_chan ev current t r.2
    ((c, r.1) :: r2.1, r2.2)

/-- The two nested loops of `close_all_peer`, before `user_map.clear()`. -/
def release_all {K L : Type} (ev : event_loop_t L) (current : Nat) :
    user_map_t K → L → user_map_t K × L
  | [], l => ([], l)
  | (a, m) :: t, l =>
    let r := release_chan ev current m l
    let r2 := release_all ev current t r.2
    ((a, r.1) :: r2.1, r2.2)

/-- The `rudp_impl_t::close_all_peer`. -/
def close_all_peer {K L : Type} (ev : event_loop_t L) (current : Nat) (s : rudp_impl_t K L) :
    rudp_impl_t K L :=
  { s with user_map := [], loops := (release_all ev current s.user_map s.loops).2 }

/-- The `rudp_impl_t::close`. -/
def close {K L : Type} (ev : event_loop_t L) (current : Nat) (s : rudp_impl_t K L) :
    rudp_impl_t K L :=
  match s.socket with
  | none => s
  | some _ => { close_all_peer ev current s with socket := none }

/-- The `rudp_impl_t::is_bind`. -/
def is_bind {K L : Type} (s : rudp_impl_t K L) : Bool := s.socket.isSome

/-! ## Cooperative dispatcher -/

/-- An element of `co_wait_for_resume`: the context pointer and the function
object, `none` when the `std::function` is empty. -/
structure exec_t where
  executor : Nat
  fn : Option Nat
deriving DecidableEq, Repr

/-- The `execute_thread_dispatcher_t`: the queue and the cancel set. -/
structure execute_thread_dispatcher_t where
  co_wait_for_resume : List exec_t
  cancel_contexts : List Nat
deriving DecidableEq, Repr

/-- A call that `dispatch` makes on a coroutine. -/
inductive co_resume_t where
  | resume (executor : Nat)
  | resume_with (executor : Nat) (fn : Nat)
deriving DecidableEq, Repr

/-- A call that a running coroutine makes back on the dispatcher. -/
inductive dispatcher_call_t where
  | add (econtext : Nat) (func : Option Nat)
  | cancel (econtext : Nat)
deriving DecidableEq, Repr

/-- The `execute_thread_dispatcher_t::add`. -/
def execute_thread_dispatcher_t.add (d : execute_thread_dispatcher_t) (econtext : Nat)
    (func : Option Nat) : execute_thread_dispatcher_t :=
  { d with co_wait_for_resume := d.co_wait_for_resume ++ [{ executor := econtext, fn := func }] }

/-- The `execute_thread_dispatcher_t::cancel` (insertion into a set). -/
def execute_thread_dispatcher_t.cancel (d : execute_thread_dispatcher_t) (econtext : Nat) :
    execute_thread_dispatcher_t :=
  if econtext ∈ d.cancel_contexts then d
  else { d with cancel_contexts := econtext :: d.cancel_contexts }

def apply_calls : List dispatcher_call_t → execute_thread_dispatcher_t → execute_thread_dispatcher_t
  | [], d => d
  | dispatcher_call_t.add c f :: t, d => apply_calls t (d.add c f)
  | dispatcher_call_t.cancel c :: t, d => apply_calls t (d.cancel c)

/-- The call `dispatch` makes for a queue element that is not cancelled. -/
def resume_call (exec : exec_t) : co_resume_t :=
  match exec.fn with
  | some f => co_resume_t.resume_with exec.executor f
  | none => co_resume_t.resume exec.executor

/-- The `execute_thread_dispatcher_t::dispatch`.  `co past r` lists the calls
the coroutine resumed by `r` makes on the dispatcher before it yields, `past`
being the resumptions made earlier in this pass.  Every turn of the `while`
loop uses one unit of `fuel`; `none` means the fuel ran out with the queue not
yet empty.  The result is the sequence of resumptions and the dispatcher
left. -/
def dispatch (co : List co_resume_t → co_resume_t → List dispatcher_call_t) :
    Nat → List co_resume_t → execute_thread_dispatcher_t →
      Option (List co_resume_t × execute_thread_dispatcher_t)
  | fuel, past, d =>
    match d.co_wait_for_resume with
    | [] => some (past, { d with cancel_contexts := [] })
    | exec :: rest =>
      match fuel with
      | 0 => none
      | fuel + 1 =>
        let d1 : execute_thread_dispatcher_t := { d with co_wait_for_resume := rest }
        if exec.executor ∈ d.cancel_contexts then dispatch co fuel past d1
        else
          dispatch co fuel (past ++ [resume_call exec])
            (apply_calls (co past (resume_call exec)) d1)

/-- The entries that the `add` calls of a list of dispatcher calls enqueue, in
the order of the calls. -/
def added : List dispatcher_call_t → List exec_t
  | [] => []
  | dispatcher_call_t.add c f :: t => { executor := c, fn := f } :: added t
  | dispatcher_call_t.cancel _ :: t => added t

/-- The contexts that the `cancel` calls of a list of dispatcher calls name. -/
def cancelled : List dispatcher_call_t → List Nat
  | [] => []
  | dispatcher_call_t.add _ _ :: t => cancelled t
  | dispatcher_call_t.cancel c :: t => c :: cancelled t

/-! ## Ingress lookup -/

/-- Outcome of `check_unknown`: the value returned, the pointer written to the
out parameter `endpoint` (`none` when it is not written), the multiplexer
after the call, and the arguments of the calls made to `unknown_handler`. -/
structure check_unknown_t (K L : Type) where
  accepted : Bool
  endpoint : Option (rudp_endpoint_t K)
  state : rudp_impl_t K L
  asked : List socket_addr_t

/-- The `rudp_impl_t::check_unknown`.  `unknown_handler` is `none` when the
`std::function` is empty; an installed handler runs application code, which
may register endpoints, so it maps the multiplexer to its answer and the
multiplexer it leaves.  The lookups are the bare nested `find`s: a stored
endpoint is taken whatever its ARQ state.  With the address absent and no
handler installed the source falls through to `it->second.find(conv)` with
`it == user_map.end()`; that dereference has no defined result, and the model
gives `none`. -/
def check_unknown {K L : Type}
    (unknown_handler : Option (socket_addr_t → rudp_impl_t K L → Bool × rudp_impl_t K L))
    (s : rudp_impl_t K L) (target : socket_addr_t) (conv : Int) :
    Option (check_unknown_t K L) :=
  match addr_find s.user_map target with
  | some m =>
    match chan_find m conv with
    | none => some { accepted := false, endpoint := none, state := s, asked := [] }
    | some e => some { accepted := true, endpoint := some e, state := s, asked := [] }
  | none =>
    match unknown_handler with
    | none => none
    | some handler =>
      let r := handler target s
      if r.1 = false then
        some { accepted := false, endpoint := none, state := r.2, asked := [target] }
      else
        match addr_find r.2.user_map target with
        | none => some { accepted := false, endpoint := none, state := r.2, asked := [target] }
        | some m =>
          match chan_find m conv with
          | none => some { accepted := false, endpoint := none, state := r.2, asked := [target] }
          | some e => some { accepted := true, endpoint := some e, state := r.2, asked := [target] }

/-! ## The delay of `set_timer` and the reachable states -/

/-- The `delta` that `set_timer` computes for the ARQ control block `k` and
hands to `add_timer`: the same expression as in `set_timer`. -/
def timer_delta {K : Type} (arq : ikcp_t K) (base_time cur : microsecond_t) (k : K) :
    microsecond_t :=
  let kcp_cur := ((cur + U64 - base_time) % U64) / 1000
  let checked := arq.ikcp_check k (kcp_cur % U32) % U32
  let next_tick_time := if checked < kcp_cur then kcp_cur % U32 else checked
  ((next_tick_time + U64 - kcp_cur % U64) % U64 * 1000) % U64

/-- The `time_point` that `set_timer` compares with the pending handle. -/
def timer_time_point {K : Type} (arq : ikcp_t K) (base_time cur : microsecond_t) (k : K) :
    microsecond_t :=
  (timer_delta arq base_time cur k + cur + base_time) % U64

/-- The states of the multiplexer reachable, from one with an empty registry,
through `add_connection`, `remove_connection`, `aclose_connection` on an
endpoint that `find` yields, `close_all_peer` and `close`.  A close that is
still suspended in its drain loop counts with the state it has reached, and
`by_resume` lets it go on later, from the state other calls have left: on an
endpoint whose closing flag is set, that is the body of `aclose_connection`
behind the entry test. -/
inductive reachable {K L : Type} (arq : ikcp_t K) (ev : event_loop_t L) :
    rudp_impl_t K L → Prop where
  | init (s : rudp_impl_t K L) : s.user_map = [] → reachable arq ev s
  | by_add (s : rudp_impl_t K L) (addr : socket_addr_t) (channel : Int)
      (inactive_timeout : microsecond_t) (loop : Nat) :
      reachable arq ev s →
      reachable arq ev (add_connection arq s addr channel inactive_timeout loop)
  | by_remove (s : rudp_impl_t K L) (cur : microsecond_t) (ws : List wakeup_t)
      (addr : socket_addr_t) (channel : Int) :
      reachable arq ev s →
      reachable arq ev (remove_connection arq ev cur ws s addr channel).1
  | by_aclose (s : rudp_impl_t K L) (fast_close : Bool) (cur : microsecond_t)
      (ws : List wakeup_t) (addr : socket_addr_t) (channel : Int)
      (endpoint : rudp_endpoint_t K) :
      reachable arq ev s → find s addr channel = some endpoint →
      reachable arq ev
        { s with
            user_map := map_set s.user_map addr channel
              (aclose_connection arq ev s.base_time fast_close cur ws endpoint s.loops).1.1,
            loops := (aclose_connection arq ev s.base_time fast_close cur ws endpoint
              s.loops).1.2 }
  | by_resume (s : rudp_impl_t K L) (cur : microsecond_t) (ws : List wakeup_t)
      (addr : socket_addr_t) (channel : Int) (endpoint : rudp_endpoint_t K) :
      reachable arq ev s → find s addr channel = some endpoint → endpoint.is_closing = true →
      reachable arq ev
        { s with
            user_map := map_set s.user_map addr channel
              (aclose_connection arq ev s.base_time false cur ws
                { endpoint with is_closing := false } s.loops).1.1,
            loops := (aclose_connection arq ev s.base_time false cur ws
              { endpoint with is_closing := false } s.loops).1.2 }
  | by_close_all_peer (s : rudp_impl_t K L) (current : Nat) :
      reachable arq ev s → reachable arq ev (close_all_peer ev current s)
  | by_close (s : rudp_impl_t K L) (current : Nat) :
      reachable arq ev s → reachable arq ev (close ev current s)

/-- The property that every endpoint of the registry whose ARQ state has been
released has its closing flag set and holds no pending timer handle. -/
def released_inactive {K L : Type} (s : rudp_impl_t K L) : Prop :=
  ∀ a m c e, (a, m) ∈ s.user_map → (c, e) ∈ m → e.ikcp = none →
    e.is_closing = true ∧ e.timer_reg.id < 0

/-! ## A concrete ARQ core and timer store, for evaluating the model -/

/-- Control block of a small ARQ core: the number of segments waiting to be
sent, the four mode parameters last set, and the accepted datagrams. -/
structure window_kcp where
  pending : Nat
  mode : Int × Int × Int × Int
  inbox : List socket_buffer_t
deriving DecidableEq, Repr

/-- A small ARQ core: the send window holds two segments, `ikcp_update`
gets one segment acknowledged, empty datagrams are rejected by `ikcp_input`,
and `ikcp_recv` hands out the accepted datagrams in order. -/
def window_arq : ikcp_t window_kcp where
  ikcp_create := fun _ => { pending := 0, mode := (0, 100, 0, 0), inbox := [] }
  ikcp_wndsize := fun k _ _ => k
  ikcp_nodelay := fun k a b c d => { k with mode := (a, b, c, d) }
  ikcp_send := fun k _ => if k.pending < 2 then (0, { k with pending := k.pending + 1 }) else (-2, k)
  ikcp_input := fun k d => if d.data = [] then (-1, k) else (0, { k with inbox := k.inbox ++ [d] })
  ikcp_recv := fun k _ =>
    match k.inbox with
    | [] => (-1, k)
    | d :: t => (d.data.length, { k with inbox := t })
  ikcp_check := fun _ cur => cur + 10
  ikcp_update := fun k _ => { k with pending := k.pending - 1 }
  ikcp_waitsnd := fun k => k.pending

/-- Timers of the event loops: a counter for fresh ids and the handles
outstanding, each with its loop. -/
structure timer_store where
  next_id : Nat
  timers : List (Nat × timer_registered_t)
deriving DecidableEq, Repr

def timer_store_loop : event_loop_t timer_store where
  add_timer := fun l n d =>
    ({ id := l.next_id, timepoint := d },
      { next_id := l.next_id + 1, timers := (n, { id := l.next_id, timepoint := d }) :: l.timers })
  remove_timer := fun l n r => { l with timers := l.timers.filter (fun p => !(p == (n, r))) }

/-- An open endpoint for address 1, channel 7. -/
def open_endpoint : rudp_endpoint_t window_kcp :=
  { remote_address := 1, ikcp := some { pending := 0, mode := (1, 20, 3, 1), inbox := [] },
    channel := 7, last_alive := 0, inactive_timeout := 1000000,
    timer_reg := { id := -1, timepoint := 0 }, wait_for_io := false, is_closing := false,
    econtext := 0, recv_queue := [] }

/-- A bound multiplexer whose registry holds `open_endpoint`. -/
def open_impl : rudp_impl_t window_kcp timer_store :=
  { user_map := [(1, [(7, open_endpoint)])], socket := some 3, base_time := 1000,
    loops := { next_id := 0, timers := [] } }

def hello : socket_buffer_t := { data := [104, 105], walk_offset := 0, walk_finished := false }

/-- An endpoint for address 1, channel 7 with two datagrams queued, the
second of which the sample ARQ core rejects. -/
def inbound_endpoint : rudp_endpoint_t window_kcp :=
  { open_endpoint with
      recv_queue := [hello, { data := [], walk_offset := 0, walk_finished := false }, hello] }

def inbound_impl : rudp_impl_t window_kcp timer_store :=
  { open_impl with user_map := [(1, [(7, inbound_endpoint)])] }

/-- The ARQ control block after `ikcp_input` has been applied to the datagrams
of a list, front first. -/
def feed {K : Type} (arq : ikcp_t K) (k : K) (ds : List socket_buffer_t) : K :=
  ds.foldl (fun k1 d => (arq.ikcp_input k1 d).2) k

/-- An open endpoint with one segment still waiting to be sent. -/
def busy_endpoint : rudp_endpoint_t window_kcp :=
  { open_endpoint with ikcp := some { pending := 1, mode := (1, 20, 3, 1), inbox := [] } }

def busy_impl : rudp_impl_t window_kcp timer_store :=
  { open_impl with user_map := [(1, [(7, busy_endpoint)])] }

/-- The multiplexer while `remove_connection(1, 7)` on `busy_impl` is
suspended in its drain loop, no wakeup having arrived yet. -/
def draining_impl : rudp_impl_t window_kcp timer_store :=
  (remove_connection window_arq timer_store_loop 5000 [] busy_impl 1 7).1

/-- The multiplexer after `remove_connection(1, 7)` on `open_impl` has
returned. -/
def closed_impl : rudp_impl_t window_kcp timer_store :=
  (remove_connection window_arq timer_store_loop 5000 [] open_impl 1 7).1

/-- The multiplexer after `close()` on `open_impl` followed by
`add_connection(1, 7, ...)`. -/
def unbound_impl : rudp_impl_t window_kcp timer_store :=
  add_connection window_arq (close timer_store_loop 0 open_impl) 1 7 1000000 0

/-- A coroutine behaviour for the dispatcher: the coroutine of context 1, when
resumed without a function, cancels context 3 and enqueues context 4; no other
resumption calls the dispatcher. -/
def cancel_then_add : List co_resume_t → co_resume_t → List dispatcher_call_t
  | _, co_resume_t.resume 1 => [dispatcher_call_t.cancel 3, dispatcher_call_t.add 4 none]
  | _, _ => []

/-- A coroutine behaviour in which no resumption calls the dispatcher. -/
def no_calls : List co_resume_t → co_resume_t → List dispatcher_call_t :=
  fun _ _ => []

/-- A bound multiplexer with an empty registry, as the constructor leaves it. -/
def fresh_impl : rudp_impl_t window_kcp timer_store :=
  { user_map := [], socket := some 3, base_time := 1000, loops := { next_id := 0, timers := [] } }

/-- An unknown-packet handler that registers channel 9 for the address it is
given and answers true. -/
def register_nine (a : socket_addr_t) (s : rudp_impl_t window_kcp timer_store) :
    Bool × rudp_impl_t window_kcp timer_store :=
  (true, add_connection window_arq s a 9 1000000 0)

/-- Timer interface with a clock: a timer added at time `now` with delay `d`
is due at `now + d`, as the spec has it for `insert`. -/
def clocked_loop (now : microsecond_t) : event_loop_t timer_store where
  add_timer := fun l n d =>
    ({ id := l.next_id, timepoint := now + d },
      { next_id := l.next_id + 1,
        timers := (n, { id := l.next_id, timepoint := now + d }) :: l.timers })
  remove_timer := fun l n r => { l with timers := l.timers.filter (fun p => !(p == (n, r))) }

end net

namespace net

/-! ## Registry lemmas -/

theorem chan_find_chan_set_same {K : Type} (m : chan_map_t K) (ch : Int)
    (e e1 : rudp_endpoint_t K) (h : chan_find m ch = some e) :
    chan_find (chan_set m ch e1) ch = some e1 := by
  induction m with
  | nil => simp [chan_find] at h
  | cons p t ih =>
    obtain ⟨c, x⟩ := p
    by_cases hc : c = ch
    · simp [chan_find, chan_set, hc]
    · simp only [chan_find, hc, if_false] at h
      simp [chan_find, chan_set, hc, ih h]

theorem chan_find_chan_set_other {K : Type} (m : chan_map_t K) (ch ch1 : Int)
    (e1 : rudp_endpoint_t K) (h : ch1 ≠ ch) :
    chan_find (chan_set m ch e1) ch1 = chan_find m ch1 := by
  induction m with
  | nil => simp [chan_find, chan_set]
  | cons p t ih =>
    obtain ⟨c, x⟩ := p
    by_cases hc : c = ch
    · have hc1 : ¬ c = ch1 := fun h1 => h (h1 ▸ hc)
      simp [chan_find, chan_set, hc]
      subst hc
      simp [hc1]
    · by_cases hc1 : c = ch1
      · subst hc1
        simp [chan_find, chan_set, hc]
      · simp [chan_find, chan_set, hc, hc1, ih]

theorem lookup_map_set_same {K : Type} (um : user_map_t K) (a : socket_addr_t) (c : Int)
    (e e1 : rudp_endpoint_t K) (h : lookup um a c = some e) :
    lookup (map_set um a c e1) a c = some e1 := by
  induction um with
  | nil => simp [lookup, addr_find] at h
  | cons p t ih =>
    obtain ⟨b, m⟩ := p
    by_cases hb : b = a
    · simp only [lookup, addr_find, hb, if_true] at h
      simp [lookup, addr_find, map_set, hb, chan_find_chan_set_same m c e e1 h]
    · have h1 : lookup t a c = some e := by
        simpa [lookup, addr_find, hb] using h
      have h2 := ih h1
      simpa [lookup, addr_find, map_set, hb] using h2

theorem lookup_map_set_other {K : Type} (um : user_map_t K) (a a1 : socket_addr_t) (c c1 : Int)
    (e1 : rudp_endpoint_t K) (h : a1 ≠ a ∨ c1 ≠ c) :
    lookup (map_set um a c e1) a1 c1 = lookup um a1 c1 := by
  induction um with
  | nil => simp [lookup, addr_find, map_set]
  | cons p t ih =>
    obtain ⟨b, m⟩ := p
    by_cases hb : b = a
    · by_cases hb1 : b = a1
      · have hc : c1 ≠ c := by
          rcases h with h | h
          · exact absurd (hb1.symm.trans hb) h
          · exact h
        simp [lookup, addr_find, map_set, hb, hb1.symm.trans hb,
          chan_find_chan_set_other m c c1 e1 hc]
      · subst hb
        simp [lookup, addr_find, map_set, hb1]
    · by_cases hb1 : b = a1
      · subst hb1
        simp [lookup, addr_find, map_set, hb]
      · have h2 := ih
        simp only [lookup] at h2
        simp [lookup, addr_find, map_set, hb, hb1, h2]

theorem find_some_lookup {K L : Type} (s : rudp_impl_t K L) (a : socket_addr_t) (c : Int)
    (e : rudp_endpoint_t K) (h : find s a c = some e) :
    lookup s.user_map a c = some e ∧ ∃ k, e.ikcp = some k := by
  unfold find at h
  cases hl : lookup s.user_map a c with
  | none => simp [hl] at h
  | some i =>
    simp only [hl] at h
    cases hi : i.ikcp with
    | none => simp [hi] at h
    | some k =>
      simp [hi] at h
      subst h
      exact ⟨rfl, k, hi⟩

theorem find_of_lookup {K L : Type} (s : rudp_impl_t K L) (a : socket_addr_t) (c : Int)
    (e : rudp_endpoint_t K) (k : K) (h : lookup s.user_map a c = some e) (hk : e.ikcp = some k) :
    find s a c = some e := by
  simp [find, h, hk]

theorem find_closed {K L : Type} (s : rudp_impl_t K L) (a : socket_addr_t) (c : Int)
    (e : rudp_endpoint_t K) (h : lookup s.user_map a c = some e) (hk : e.ikcp = none) :
    find s a c = none := by
  simp [find, h, hk]

/-! ## Timer and update lemmas -/

theorem set_timer_ikcp {K L : Type} (arq : ikcp_t K) (ev : event_loop_t L)
    (base_time cur : microsecond_t) (ep : rudp_endpoint_t K) (l : L) :
    (set_timer arq ev base_time cur ep l).1.ikcp = ep.ikcp := by
  unfold set_timer
  cases h : ep.ikcp with
  | none => simp [h]
  | some k =>
    simp only []
    split_ifs <;> simp [h]

theorem set_timer_armed {K L : Type} (arq : ikcp_t K) (ev : event_loop_t L)
    (base_time cur : microsecond_t) (ep : rudp_endpoint_t K) (l : L) (k : K)
    (hk : ep.ikcp = some k) (hid : ∀ l n d, 0 ≤ (ev.add_timer l n d).1.id) :
    0 ≤ (set_timer arq ev base_time cur ep l).1.timer_reg.id := by
  unfold set_timer
  simp only [hk]
  split_ifs <;> first | exact hid _ _ _ | simp_all

theorem update_endpoint_wait {K : Type} (arq : ikcp_t K) (ep : rudp_endpoint_t K) (b : Bool) :
    update_endpoint arq { ep with wait_for_io := b }
      = { update_endpoint arq ep with wait_for_io := b } := by
  unfold update_endpoint
  cases h : ep.ikcp <;> simp [h]

theorem update_endpoint_live {K : Type} (arq : ikcp_t K) (ep : rudp_endpoint_t K) (k : K)
    (h : ep.ikcp = some k) :
    (update_endpoint arq ep).ikcp = some (drain_queue arq k ep.recv_queue).1 := by
  simp [update_endpoint, h]

/-! ## Cooperative write and read -/

theorem find_written {K L : Type} (s : rudp_impl_t K L) (a : socket_addr_t) (c : Int)
    (e e1 : rudp_endpoint_t K) (k : K) (l : L) (h : find s a c = some e)
    (hk : e1.ikcp = some k) :
    find ({ s with user_map := map_set s.user_map a c e1, loops := l } : rudp_impl_t K L) a c
      = some e1 := by
  have h1 := (find_some_lookup s a c e h).1
  have h2 := lookup_map_set_same s.user_map a c e e1 h1
  simp [find, h2, hk]

/-- C1: the contract of `awrite`.  It returns `failed` with nothing changed
when `find(conn)` yields no endpoint.  On an endpoint found: with the stop flag
set it returns `timeout`, clears `wait_for_io`, marks the buffer consumed and
leaves the ARQ state and the timers as they were (nothing is handed to
`ikcp_send`); otherwise, when `ikcp_send` returns `>= 0`, it returns `ok`, the
endpoint is the one `set_timer` leaves, with `wait_for_io` cleared, its timer
handle is a pending one (`id >= 0`, given that `add_timer` hands out such ids)
and the buffer is marked consumed; otherwise it returns the pending marker with
`wait_for_io` set to true. -/
theorem awrite_contract {K L : Type} (arq : ikcp_t K) (ev : event_loop_t L) (cur : microsecond_t)
    (s : rudp_impl_t K L) (is_stop : Bool) (conn : rudp_connection_t) (buffer : socket_buffer_t) :
    (find_conn s conn = none →
      awrite arq ev cur s is_stop conn buffer = (some io_result.failed, s, buffer)) ∧
    (∀ ep, find_conn s conn = some ep → is_stop = true →
      (awrite arq ev cur s is_stop conn buffer).1 = some io_result.timeout ∧
      find_conn (awrite arq ev cur s is_stop conn buffer).2.1 conn
        = some { ep with wait_for_io := false } ∧
      (awrite arq ev cur s is_stop conn buffer).2.1.loops = s.loops ∧
      (awrite arq ev cur s is_stop conn buffer).2.2 = buffer.finish_walk) ∧
    (∀ ep k, find_conn s conn = some ep → is_stop = false → ep.ikcp = some k →
      0 ≤ (arq.ikcp_send k buffer).1 →
      (awrite arq ev cur s is_stop conn buffer).1 = some io_result.ok ∧
      find_conn (awrite arq ev cur s is_stop conn buffer).2.1 conn
        = some { (set_timer arq ev s.base_time cur
                    { ep with ikcp := some (arq.ikcp_send k buffer).2 } s.loops).1
                 with wait_for_io := false } ∧
      (awrite arq ev cur s is_stop conn buffer).2.1.loops
        = (set_timer arq ev s.base_time cur
            { ep with ikcp := some (arq.ikcp_send k buffer).2 } s.loops).2 ∧
      ((∀ l n d, 0 ≤ (ev.add_timer l n d).1.id) →
        0 ≤ (set_timer arq ev s.base_time cur
              { ep with ikcp := some (arq.ikcp_send k buffer).2 } s.loops).1.timer_reg.id) ∧
      (awrite arq ev cur s is_stop conn buffer).2.2 = buffer.finish_walk) ∧
    (∀ ep k, find_conn s conn = some ep → is_stop = false → ep.ikcp = some k →
      (arq.ikcp_send k buffer).1 < 0 →
      (awrite arq ev cur s is_stop conn buffer).1 = none ∧
      find_conn (awrite arq ev cur s is_stop conn buffer).2.1 conn
        = some { ep with ikcp := some (arq.ikcp_send k buffer).2, wait_for_io := true } ∧
      (awrite arq ev cur s is_stop conn buffer).2.1.loops = s.loops ∧
      (awrite arq ev cur s is_stop conn buffer).2.2 = buffer) := by
  refine ⟨?_, ?_, ?_, ?_⟩
  · intro h
    simp [awrite, h]
  · intro ep h hs
    obtain ⟨k, hk⟩ := (find_some_lookup s conn.address conn.channel ep h).2
    have hf := find_written s conn.address conn.channel ep { ep with wait_for_io := false } k
      s.loops h hk
    simp only [awrite, h, hs, if_true]
    exact ⟨by trivial, hf, by trivial, by trivial⟩
  · intro ep k h hs hk hr
    have hf := find_written s conn.address conn.channel ep
      { (set_timer arq ev s.base_time cur
          { ep with ikcp := some (arq.ikcp_send k buffer).2 } s.loops).1
        with wait_for_io := false } (arq.ikcp_send k buffer).2
      (set_timer arq ev s.base_time cur
          { ep with ikcp := some (arq.ikcp_send k buffer).2 } s.loops).2 h
      (by simp [set_timer_ikcp])
    simp only [awrite, h, hs, hk, hr, if_true, Bool.false_eq_true, if_false]
    exact ⟨by trivial, hf, by trivial,
      fun hid => set_timer_armed arq ev s.base_time cur _ s.loops _ rfl hid, by trivial⟩
  · intro ep k h hs hk hr
    have hf := find_written s conn.address conn.channel ep
      { ep with ikcp := some (arq.ikcp_send k buffer).2, wait_for_io := true }
      (arq.ikcp_send k buffer).2 s.loops h rfl
    have hr1 : ¬ 0 ≤ (arq.ikcp_send k buffer).1 := not_le.mpr hr
    simp only [awrite, h, hs, hk, hr1, Bool.false_eq_true, if_false]
    exact ⟨by trivial, hf, by trivial, by trivial⟩

/-- Witness of C1 on the sample multiplexer: the endpoint is found, the stop
flag is clear and the ARQ core accepts the bytes, so `awrite` returns `ok`,
clears `wait_for_io` and leaves a pending timer handle. -/
theorem awrite_contract_witness :
    find_conn open_impl { address := 1, channel := 7 } = some open_endpoint ∧
    (awrite window_arq timer_store_loop 5000 open_impl false
      { address := 1, channel := 7 } hello).1 = some io_result.ok ∧
    (find_conn (awrite window_arq timer_store_loop 5000 open_impl false
      { address := 1, channel := 7 } hello).2.1 { address := 1, channel := 7 }).map
        (fun e => (e.wait_for_io, decide (0 ≤ e.timer_reg.id))) = some (false, true) :=
  ⟨by decide,
   ((awrite_contract window_arq timer_store_loop 5000 open_impl false
      { address := 1, channel := 7 } hello).2.2.1 open_endpoint
      { pending := 0, mode := (1, 20, 3, 1), inbox := [] } (by decide) rfl rfl (by decide)).1,
   by decide⟩

/-- C2: the contract of `aread`.  It returns `failed` with nothing changed when
`find(conn)` yields no endpoint.  On an endpoint found it first drains
`recv_queue` as `update_endpoint` does; then, with the stop flag set, it
returns `timeout` with `wait_for_io` cleared and the buffer marked consumed;
otherwise, when `ikcp_recv` returns `len >= 0`, it returns `ok` with
`wait_for_io` cleared and the walk pointer of the buffer advanced by `len`;
otherwise it returns the pending marker and `wait_for_io` stays true.  In the
last two cases the timer has been re-armed by `set_timer`. -/
theorem aread_contract {K L : Type} (arq : ikcp_t K) (ev : event_loop_t L) (cur : microsecond_t)
    (s : rudp_impl_t K L) (is_stop : Bool) (conn : rudp_connection_t) (buffer : socket_buffer_t) :
    (find_conn s conn = none →
      aread arq ev cur s is_stop conn buffer = (some io_result.failed, s, buffer)) ∧
    (∀ ep, find_conn s conn = some ep → is_stop = true →
      (aread arq ev cur s is_stop conn buffer).1 = some io_result.timeout ∧
      find_conn (aread arq ev cur s is_stop conn buffer).2.1 conn
        = some { update_endpoint arq ep with wait_for_io := false } ∧
      (aread arq ev cur s is_stop conn buffer).2.1.loops = s.loops ∧
      (aread arq ev cur s is_stop conn buffer).2.2 = buffer.finish_walk) ∧
    (∀ ep k, find_conn s conn = some ep → is_stop = false →
      (update_endpoint arq ep).ikcp = some k → 0 ≤ (arq.ikcp_recv k buffer).1 →
      (aread arq ev cur s is_stop conn buffer).1 = some io_result.ok ∧
      find_conn (aread arq ev cur s is_stop conn buffer).2.1 conn
        = some { (set_timer arq ev s.base_time cur
                    { update_endpoint arq ep with
                        ikcp := some (arq.ikcp_recv k buffer).2, wait_for_io := true } s.loops).1
                 with wait_for_io := false } ∧
      (aread arq ev cur s is_stop conn buffer).2.1.loops
        = (set_timer arq ev s.base_time cur
            { update_endpoint arq ep with
                ikcp := some (arq.ikcp_recv k buffer).2, wait_for_io := true } s.loops).2 ∧
      (aread arq ev cur s is_stop conn buffer).2.2
        = { buffer with walk_offset := buffer.walk_offset + (arq.ikcp_recv k buffer).1.toNat,
                        walk_finished := true }) ∧
    (∀ ep k, find_conn s conn = some ep → is_stop = false →
      (update_endpoint arq ep).ikcp = some k → (arq.ikcp_recv k buffer).1 < 0 →
      (aread arq ev cur s is_stop conn buffer).1 = none ∧
      find_conn (aread arq ev cur s is_stop conn buffer).2.1 conn
        = some (set_timer arq ev s.base_time cur
                  { update_endpoint arq ep with
                      ikcp := some (arq.ikcp_recv k buffer).2, wait_for_io := true } s.loops).1 ∧
      (set_timer arq ev s.base_time cur
          { update_endpoint arq ep with
              ikcp := some (arq.ikcp_recv k buffer).2, wait_for_io := true }
          s.loops).1.wait_for_io = true ∧
      (aread arq ev cur s is_stop conn buffer).2.2 = buffer) := by
  refine ⟨?_, ?_, ?_, ?_⟩
  · intro h
    simp [aread, h]
  · intro ep h hs
    obtain ⟨k, hk⟩ := (find_some_lookup s conn.address conn.channel ep h).2
    have hf := find_written s conn.address conn.channel ep
      { update_endpoint arq ep with wait_for_io := false } _ s.loops h
      (update_endpoint_live arq ep k hk)
    simp only [aread, h, hs, if_true, update_endpoint_wait]
    exact ⟨by trivial, hf, by trivial, by trivial⟩
  · intro ep k h hs hk hr
    have hf := find_written s conn.address conn.channel ep
      { (set_timer arq ev s.base_time cur
          { update_endpoint arq ep with
              ikcp := some (arq.ikcp_recv k buffer).2, wait_for_io := true } s.loops).1
        with wait_for_io := false } (arq.ikcp_recv k buffer).2
      (set_timer arq ev s.base_time cur
          { update_endpoint arq ep with
              ikcp := some (arq.ikcp_recv k buffer).2, wait_for_io := true } s.loops).2 h
      (by simp [set_timer_ikcp])
    simp only [aread, h, hs, hk, hr, if_true, Bool.false_eq_true, if_false, update_endpoint_wait]
    exact ⟨by trivial, hf, by trivial, by trivial⟩
  · intro ep k h hs hk hr
    have hf := find_written s conn.address conn.channel ep
      (set_timer arq ev s.base_time cur
          { update_endpoint arq ep with
              ikcp := some (arq.ikcp_recv k buffer).2, wait_for_io := true } s.loops).1
      (arq.ikcp_recv k buffer).2
      (set_timer arq ev s.base_time cur
          { update_endpoint arq ep with
              ikcp := some (arq.ikcp_recv k buffer).2, wait_for_io := true } s.loops).2 h
      (by simp [set_timer_ikcp])
    have hr1 : ¬ 0 ≤ (arq.ikcp_recv k buffer).1 := not_le.mpr hr
    have hw : (set_timer arq ev s.base_time cur
          { update_endpoint arq ep with
              ikcp := some (arq.ikcp_recv k buffer).2, wait_for_io := true }
          s.loops).1.wait_for_io = true := by
      unfold set_timer
      simp only []
      split_ifs <;> rfl
    simp only [aread, h, hs, hk, hr1, Bool.false_eq_true, if_false, update_endpoint_wait]
    exact ⟨by trivial, hf, hw, by trivial⟩

/-- Witness of C2 on the sample multiplexer: the endpoint is found, the stop
flag is clear, and after the drain the ARQ core has two bytes to deliver, so
`aread` returns `ok` and advances the walk pointer by two. -/
theorem aread_contract_witness :
    find_conn inbound_impl { address := 1, channel := 7 } = some inbound_endpoint ∧
    (aread window_arq timer_store_loop 5000 inbound_impl false
      { address := 1, channel := 7 } hello).1 = some io_result.ok ∧
    (aread window_arq timer_store_loop 5000 inbound_impl false
      { address := 1, channel := 7 } hello).2.2
        = { data := [104, 105], walk_offset := 2, walk_finished := true } :=
  ⟨by decide,
   ((aread_contract window_arq timer_store_loop 5000 inbound_impl false
      { address := 1, channel := 7 } hello).2.2.1 inbound_endpoint
      { pending := 0, mode := (1, 20, 3, 1), inbox := [hello] }
      (by decide) rfl (by decide) (by decide)).1,
   by decide⟩

/-! ## Draining the receive queue -/

theorem feed_cons {K : Type} (arq : ikcp_t K) (k : K) (d : socket_buffer_t)
    (ds : List socket_buffer_t) :
    feed arq k (d :: ds) = feed arq (arq.ikcp_input k d).2 ds := rfl

theorem drain_queue_fifo {K : Type} (arq : ikcp_t K) (q : List socket_buffer_t) :
    ∀ k : K, ∃ fed rest, q = fed ++ rest ∧ (drain_queue arq k q).2 = rest ∧
      (∀ pre d post, fed = pre ++ d :: post → 0 ≤ (arq.ikcp_input (feed arq k pre) d).1) ∧
      ((rest = [] ∧ (drain_queue arq k q).1 = feed arq k fed) ∨
       (∃ d tl, rest = d :: tl ∧ (arq.ikcp_input (feed arq k fed) d).1 < 0 ∧
          (drain_queue arq k q).1 = (arq.ikcp_input (feed arq k fed) d).2)) := by
  induction q with
  | nil =>
    intro k
    refine ⟨[], [], rfl, rfl, ?_, Or.inl ⟨rfl, rfl⟩⟩
    intro pre d post h
    simp at h
  | cons d t ih =>
    intro k
    by_cases hd : 0 ≤ (arq.ikcp_input k d).1
    · obtain ⟨fed, rest, hq, hrest, hfed, hend⟩ := ih (arq.ikcp_input k d).2
      refine ⟨d :: fed, rest, by simp [hq], by simp [drain_queue, hd, hrest], ?_, ?_⟩
      · intro pre x post h
        cases pre with
        | nil =>
          simp only [List.nil_append, List.cons.injEq] at h
          rw [← h.1]
          exact hd
        | cons p pre1 =>
          simp only [List.cons_append, List.cons.injEq] at h
          rw [← h.1, feed_cons]
          exact hfed pre1 x post h.2
      · simp only [drain_queue, hd, if_true, feed_cons]
        exact hend
    · refine ⟨[], d :: t, rfl, by simp [drain_queue, hd], ?_, Or.inr ⟨d, t, rfl, ?_, ?_⟩⟩
      · intro pre x post h
        simp at h
      · exact not_le.mp hd
      · simp [drain_queue, hd, feed]

/-- C10: `update_endpoint` is a total function (it terminates on every queue)
and splits the receive queue `q` into `fed ++ rest`: the datagrams of `fed`
were fed to `ikcp_input` in queue order, each accepted in the ARQ state its
predecessors left; `rest` is what stays queued.  Either `rest` is empty and
the ARQ state is the one left by feeding all of `q`, or `rest` starts with the
first datagram `d` that `ikcp_input` rejects, `d` is not popped, and the ARQ
state is the one left by that rejected call, so no datagram behind `d` was
fed.  Nothing else of the endpoint changes. -/
theorem update_endpoint_fifo {K : Type} (arq : ikcp_t K) (ep : rudp_endpoint_t K) (k : K)
    (hk : ep.ikcp = some k) :
    ∃ fed rest, ep.recv_queue = fed ++ rest ∧
      (update_endpoint arq ep).recv_queue = rest ∧
      (∀ pre d post, fed = pre ++ d :: post → 0 ≤ (arq.ikcp_input (feed arq k pre) d).1) ∧
      ((rest = [] ∧ (update_endpoint arq ep).ikcp = some (feed arq k fed)) ∨
       (∃ d tl, rest = d :: tl ∧ (arq.ikcp_input (feed arq k fed) d).1 < 0 ∧
          (update_endpoint arq ep).ikcp = some (arq.ikcp_input (feed arq k fed) d).2)) ∧
      update_endpoint arq ep
        = { ep with ikcp := (update_endpoint arq ep).ikcp,
                    recv_queue := (update_endpoint arq ep).recv_queue } := by
  obtain ⟨fed, rest, hq, hrest, hfed, hend⟩ := drain_queue_fifo arq ep.recv_queue k
  refine ⟨fed, rest, hq, by simp [update_endpoint, hk, hrest], hfed, ?_, by
    simp [update_endpoint, hk]⟩
  rcases hend with ⟨h1, h2⟩ | ⟨d, tl, h1, h2, h3⟩
  · exact Or.inl ⟨h1, by simp [update_endpoint, hk, h2]⟩
  · exact Or.inr ⟨d, tl, h1, h2, by simp [update_endpoint, hk, h3]⟩

/-- Witness of C10 on the sample endpoint, whose queue holds a datagram the
ARQ core accepts, one it rejects and a third one: the first is fed and popped,
the other two stay queued in order. -/
theorem update_endpoint_fifo_witness :
    inbound_endpoint.ikcp = some { pending := 0, mode := (1, 20, 3, 1), inbox := [] } ∧
    (update_endpoint window_arq inbound_endpoint).recv_queue
      = [{ data := [], walk_offset := 0, walk_finished := false }, hello] ∧
    ∃ fed rest, inbound_endpoint.recv_queue = fed ++ rest ∧
      (update_endpoint window_arq inbound_endpoint).recv_queue = rest :=
  ⟨by decide, by decide,
   (update_endpoint_fifo window_arq inbound_endpoint
      { pending := 0, mode := (1, 20, 3, 1), inbox := [] } (by decide)).imp
     (fun _ h => h.imp (fun _ h1 => ⟨h1.1, h1.2.1⟩))⟩

/-! ## I/O on a closing endpoint -/

theorem awrite_code {K L : Type} (arq : ikcp_t K) (ev : event_loop_t L) (cur : microsecond_t)
    (s : rudp_impl_t K L) (is_stop : Bool) (conn : rudp_connection_t) (buffer : socket_buffer_t)
    (ep : rudp_endpoint_t K) (k : K) (h : find_conn s conn = some ep) (hk : ep.ikcp = some k) :
    (awrite arq ev cur s is_stop conn buffer).1
      = if is_stop then some io_result.timeout
        else if 0 ≤ (arq.ikcp_send k buffer).1 then some io_result.ok else none := by
  simp only [awrite, h, hk]
  cases is_stop
  · by_cases hr : 0 ≤ (arq.ikcp_send k buffer).1 <;> simp [hr]
  · simp

theorem aread_code {K L : Type} (arq : ikcp_t K) (ev : event_loop_t L) (cur : microsecond_t)
    (s : rudp_impl_t K L) (is_stop : Bool) (conn : rudp_connection_t) (buffer : socket_buffer_t)
    (ep : rudp_endpoint_t K) (k : K) (h : find_conn s conn = some ep) (hk : ep.ikcp = some k) :
    (aread arq ev cur s is_stop conn buffer).1
      = if is_stop then some io_result.timeout
        else if 0 ≤ (arq.ikcp_recv (drain_queue arq k ep.recv_queue).1 buffer).1
          then some io_result.ok else none := by
  have hu : (update_endpoint arq { ep with wait_for_io := true }).ikcp
      = some (drain_queue arq k ep.recv_queue).1 := by
    simp [update_endpoint, hk]
  simp only [aread, h, hu]
  cases is_stop
  · by_cases hr : 0 ≤ (arq.ikcp_recv (drain_queue arq k ep.recv_queue).1 buffer).1 <;> simp [hr]
  · simp

/-- C3, counterexample: on the sample multiplexer `remove_connection(1, 7)` is
suspended in its drain loop (it has not returned), the endpoint has its
closing flag set and its ARQ state still live; an `awrite` on that connection
then returns `ok`, not `failed`, and the ARQ core holds one more segment; an
`aread` returns the pending marker, not `failed`. -/
theorem closing_io_not_refused :
    (remove_connection window_arq timer_store_loop 5000 [] busy_impl 1 7).2 = false ∧
    (lookup draining_impl.user_map 1 7).map (fun e => (e.is_closing, e.ikcp.map (fun k => k.pending)))
      = some (true, some 1) ∧
    (awrite window_arq timer_store_loop 6000 draining_impl false
      { address := 1, channel := 7 } hello).1 = some io_result.ok ∧
    (awrite window_arq timer_store_loop 6000 draining_impl false
      { address := 1, channel := 7 } hello).1 ≠ some io_result.failed ∧
    (find (awrite window_arq timer_store_loop 6000 draining_impl false
      { address := 1, channel := 7 } hello).2.1 1 7).map (fun e => e.ikcp.map (fun k => k.pending))
      = some (some 2) ∧
    (aread window_arq timer_store_loop 6000 draining_impl false
      { address := 1, channel := 7 } hello).1 ≠ some io_result.failed := by
  decide

/-- C3 as amended: once the ARQ state of an endpoint has been released (the
close has completed), `awrite` and `aread` on that connection return `failed`
and change neither the multiplexer nor the buffer.  While the closing flag is
set and the ARQ state is still live, neither function reads the flag: each
returns what it returns on the same endpoint with the flag clear. -/
theorem closed_io_failed {K L : Type} (arq : ikcp_t K) (ev : event_loop_t L) (cur : microsecond_t)
    (s : rudp_impl_t K L) (is_stop : Bool) (conn : rudp_connection_t) (buffer : socket_buffer_t) :
    (∀ ep, lookup s.user_map conn.address conn.channel = some ep → ep.ikcp = none →
      awrite arq ev cur s is_stop conn buffer = (some io_result.failed, s, buffer) ∧
      aread arq ev cur s is_stop conn buffer = (some io_result.failed, s, buffer)) ∧
    (∀ ep k, lookup s.user_map conn.address conn.channel = some ep → ep.is_closing = true →
      ep.ikcp = some k →
      (awrite arq ev cur s is_stop conn buffer).1
        = (awrite arq ev cur
            { s with user_map := map_set s.user_map conn.address conn.channel
                       { ep with is_closing := false } } is_stop conn buffer).1 ∧
      (aread arq ev cur s is_stop conn buffer).1
        = (aread arq ev cur
            { s with user_map := map_set s.user_map conn.address conn.channel
                       { ep with is_closing := false } } is_stop conn buffer).1) := by
  constructor
  · intro ep h hk
    have hf : find_conn s conn = none := find_closed s conn.address conn.channel ep h hk
    simp [awrite, aread, hf]
  · intro ep k h _ hk
    have hf : find_conn s conn = some ep := find_of_lookup s conn.address conn.channel ep k h hk
    have hf1 := find_written s conn.address conn.channel ep { ep with is_closing := false } k
      s.loops hf hk
    exact ⟨(awrite_code arq ev cur s is_stop conn buffer ep k hf hk).trans
        (awrite_code arq ev cur _ is_stop conn buffer _ k hf1 hk).symm,
      (aread_code arq ev cur s is_stop conn buffer ep k hf hk).trans
        (aread_code arq ev cur _ is_stop conn buffer _ k hf1 hk).symm⟩

/-- Witness of C3 as amended: on the sample multiplexer whose endpoint has
been closed, `awrite` returns `failed`; on the one still draining it returns
`ok`, as it does with the closing flag clear. -/
theorem closed_io_failed_witness :
    (lookup closed_impl.user_map 1 7).map (fun e => e.ikcp) = some none ∧
    awrite window_arq timer_store_loop 6000 closed_impl false { address := 1, channel := 7 } hello
      = (some io_result.failed, closed_impl, hello) ∧
    (awrite window_arq timer_store_loop 6000
      { draining_impl with
          user_map := map_set draining_impl.user_map 1 7
            { busy_endpoint with wait_for_io := true,
                                 timer_reg := { id := 0, timepoint := 10000 } } }
      false { address := 1, channel := 7 } hello).1 = some io_result.ok :=
  ⟨by decide,
   ((closed_io_failed window_arq timer_store_loop 6000 closed_impl false
      { address := 1, channel := 7 } hello).1
      { open_endpoint with ikcp := none, is_closing := true } (by decide) rfl).1,
   ((closed_io_failed window_arq timer_store_loop 6000 draining_impl false
      { address := 1, channel := 7 } hello).2
      { busy_endpoint with is_closing := true, wait_for_io := true,
                           timer_reg := { id := 0, timepoint := 10000 } }
      { pending := 1, mode := (1, 20, 3, 1), inbox := [] } (by decide) rfl rfl).1.symm.trans
      (by decide)⟩

/-! ## Registration over a closed endpoint -/

theorem chan_find_emplace_fresh {K : Type} (m : chan_map_t K) (ch : Int)
    (e1 : rudp_endpoint_t K) (h : chan_find m ch = none) :
    chan_find (chan_emplace m ch e1) ch = some e1 := by
  induction m with
  | nil => simp [chan_find, chan_emplace]
  | cons p t ih =>
    obtain ⟨c, x⟩ := p
    by_cases hc : c = ch
    · simp [chan_find, hc] at h
    · simp only [chan_find, hc, if_false] at h
      simp [chan_find, chan_emplace, hc, ih h]

theorem lookup_emplace_fresh {K : Type} (um : user_map_t K) (a : socket_addr_t) (c : Int)
    (e1 : rudp_endpoint_t K) (h : lookup um a c = none) :
    lookup (map_emplace um a c e1) a c = some e1 := by
  induction um with
  | nil => simp [lookup, addr_find, map_emplace, chan_find]
  | cons p t ih =>
    obtain ⟨b, m⟩ := p
    by_cases hb : b = a
    · simp only [lookup, addr_find, hb, if_true] at h
      simp [lookup, addr_find, map_emplace, hb, chan_find_emplace_fresh m c e1 h]
    · have h1 : lookup t a c = none := by
        simpa [lookup, addr_find, hb] using h
      have h2 := ih h1
      simpa [lookup, addr_find, map_emplace, hb] using h2

theorem chan_find_filter_live {K : Type} (m : chan_map_t K) (ch : Int) (e : rudp_endpoint_t K)
    (h : chan_find m ch = some e) (hl : e.ikcp.isSome = true) :
    chan_find (m.filter (fun q => q.2.ikcp.isSome)) ch = some e := by
  induction m with
  | nil => simp [chan_find] at h
  | cons p t ih =>
    obtain ⟨c, x⟩ := p
    by_cases hc : c = ch
    · simp only [chan_find, hc, if_true, Option.some.injEq] at h
      subst h
      simp [List.filter_cons, hl, chan_find, hc]
    · simp only [chan_find, hc, if_false] at h
      by_cases hx : x.ikcp.isSome = true
      · simp [List.filter_cons, hx, chan_find, hc, ih h]
      · simp [List.filter_cons, hx, ih h]

theorem lookup_sweep_live {K : Type} (um : user_map_t K) (a : socket_addr_t) (c : Int)
    (e : rudp_endpoint_t K) (h : lookup um a c = some e) (hl : e.ikcp.isSome = true) :
    lookup (sweep um) a c = some e := by
  induction um with
  | nil => simp [lookup, addr_find] at h
  | cons p t ih =>
    obtain ⟨b, m⟩ := p
    by_cases hb : b = a
    · simp only [lookup, addr_find, hb, if_true] at h
      have h1 := chan_find_filter_live m c e h hl
      have h2 : (m.filter (fun q => q.2.ikcp.isSome)).isEmpty = false := by
        cases hm : m.filter (fun q => q.2.ikcp.isSome) with
        | nil => simp [hm, chan_find] at h1
        | cons y ys => rfl
      simp [sweep, List.filter_cons, h2, lookup, addr_find, hb, h1]
    · have h1 : lookup t a c = some e := by
        simpa [lookup, addr_find, hb] using h
      have h2 := ih h1
      simp only [sweep, lookup] at h2
      by_cases hm : (m.filter (fun q => q.2.ikcp.isSome)).isEmpty = true
      · simp [sweep, List.filter_cons, hm, lookup, h2]
      · simp [sweep, List.filter_cons, hm, lookup, addr_find, hb, h2]

/-- Registration of a key the registry does not hold at all: afterwards `find`
yields an endpoint for that address and channel. -/
theorem add_connection_fresh {K L : Type} (arq : ikcp_t K) (s : rudp_impl_t K L)
    (addr : socket_addr_t) (channel : Int) (inactive_timeout : microsecond_t) (loop : Nat)
    (h : lookup s.user_map addr channel = none) :
    ∃ ep, find (add_connection arq s addr channel inactive_timeout loop) addr channel = some ep ∧
      ep.remote_address = addr ∧ ep.channel = channel ∧ ep.is_closing = false ∧
      ep.timer_reg.id = -1 := by
  have hf : find s addr channel = none := by simp [find, h]
  have h1 := lookup_emplace_fresh s.user_map addr channel
    { remote_address := addr,
      ikcp := some (arq.ikcp_wndsize (arq.ikcp_create channel) 128 128),
      channel := channel, last_alive := 0, inactive_timeout := inactive_timeout,
      timer_reg := { id := -1, timepoint := 0 }, wait_for_io := false, is_closing := false,
      econtext := loop, recv_queue := [] } h
  have h2 := lookup_sweep_live _ addr channel _ h1 rfl
  have h3 : find_conn
      ({ s with
          user_map := sweep (map_emplace s.user_map addr channel
            { remote_address := addr,
              ikcp := some (arq.ikcp_wndsize (arq.ikcp_create channel) 128 128),
              channel := channel, last_alive := 0, inactive_timeout := inactive_timeout,
              timer_reg := { id := -1, timepoint := 0 }, wait_for_io := false,
              is_closing := false, econtext := loop, recv_queue := [] }) } : rudp_impl_t K L)
      { address := addr, channel := channel } = some _ :=
    find_of_lookup _ addr channel _ _ h2 rfl
  have h4 := lookup_map_set_same _ addr channel _
    { remote_address := addr,
      ikcp := some (arq.ikcp_nodelay (arq.ikcp_wndsize (arq.ikcp_create channel) 128 128)
        1 20 3 1),
      channel := channel, last_alive := 0, inactive_timeout := inactive_timeout,
      timer_reg := { id := -1, timepoint := 0 }, wait_for_io := false, is_closing := false,
      econtext := loop, recv_queue := [] } h2
  refine ⟨
    { remote_address := addr,
      ikcp := some (arq.ikcp_nodelay (arq.ikcp_wndsize (arq.ikcp_create channel) 128 128)
        1 20 3 1),
      channel := channel, last_alive := 0, inactive_timeout := inactive_timeout,
      timer_reg := { id := -1, timepoint := 0 }, wait_for_io := false, is_closing := false,
      econtext := loop, recv_queue := [] }, ?_, rfl, rfl, rfl, rfl⟩
  simp only [add_connection, hf, config, h3]
  exact find_of_lookup _ addr channel _ _ h4 rfl

/-- C4, evaluation at the failing input: on the sample multiplexer the
connection (1, 7) has been removed, so the registry still holds its endpoint
with the ARQ state released and `find(1, 7)` returns nothing.  The call
`add_connection(1, 7, ...)` then leaves a registry without any endpoint for
(1, 7): the `emplace` does not replace the entry present, and the sweep erases
that entry. -/
theorem add_connection_over_closed :
    (remove_connection window_arq timer_store_loop 5000 [] open_impl 1 7).2 = true ∧
    (lookup closed_impl.user_map 1 7).map (fun e => e.ikcp) = some none ∧
    find closed_impl 1 7 = none ∧
    find (add_connection window_arq closed_impl 1 7 1000000 0) 1 7 = none ∧
    (add_connection window_arq closed_impl 1 7 1000000 0).user_map = [] := by
  decide

/-! ## Removing a connection -/

theorem chan_set_self {K : Type} (m : chan_map_t K) (ch : Int) (e : rudp_endpoint_t K)
    (h : chan_find m ch = some e) : chan_set m ch e = m := by
  induction m with
  | nil => rfl
  | cons p t ih =>
    obtain ⟨c, x⟩ := p
    by_cases hc : c = ch
    · simp only [chan_find, hc, if_true, Option.some.injEq] at h
      simp [chan_set, hc, h]
    · simp only [chan_find, hc, if_false] at h
      simp [chan_set, hc, ih h]

theorem map_set_self {K : Type} (um : user_map_t K) (a : socket_addr_t) (c : Int)
    (e : rudp_endpoint_t K) (h : lookup um a c = some e) : map_set um a c e = um := by
  induction um with
  | nil => rfl
  | cons p t ih =>
    obtain ⟨b, m⟩ := p
    by_cases hb : b = a
    · simp only [lookup, addr_find, hb, if_true] at h
      simp [map_set, hb, chan_set_self m c e h]
    · have h1 : lookup t a c = some e := by
        simpa [lookup, addr_find, hb] using h
      simp [map_set, hb, ih h1]

theorem aclose_connection_closing {K L : Type} (arq : ikcp_t K) (ev : event_loop_t L)
    (base_time : microsecond_t) (fast_close : Bool) (cur : microsecond_t) (ws : List wakeup_t)
    (ep : rudp_endpoint_t K) (l : L) (h : ep.is_closing = true) :
    aclose_connection arq ev base_time fast_close cur ws ep l = ((ep, l), true) := by
  simp [aclose_connection, h]

theorem aclose_connection_returned {K L : Type} (arq : ikcp_t K) (ev : event_loop_t L)
    (base_time : microsecond_t) (fast_close : Bool) (cur : microsecond_t) (ws : List wakeup_t)
    (ep : rudp_endpoint_t K) (l : L) (h : ep.is_closing = false)
    (hr : (aclose_connection arq ev base_time fast_close cur ws ep l).2 = true) :
    (aclose_connection arq ev base_time fast_close cur ws ep l).1.1.ikcp = none ∧
    (aclose_connection arq ev base_time fast_close cur ws ep l).1.1.timer_reg.id < 0 := by
  unfold aclose_connection at hr ⊢
  simp only [h, Bool.false_eq_true, if_false] at hr ⊢
  cases fast_close
  · simp only [Bool.false_eq_true, if_false] at hr ⊢
    cases hd : (drain_send arq ev base_time cur ws { ep with is_closing := true } l).2
    · simp [hd] at hr
    · simp only [if_true]
      split_ifs with h1
      · simp
      · exact ⟨rfl, not_le.mp h1⟩
  · simp only [if_true]
    split_ifs with h1
    · simp
    · exact ⟨rfl, not_le.mp h1⟩

theorem aclose_connection_idle {K L : Type} (arq : ikcp_t K) (ev : event_loop_t L)
    (base_time : microsecond_t) (cur : microsecond_t) (ws : List wakeup_t)
    (ep : rudp_endpoint_t K) (l : L) (hw : waitsnd arq ep ≤ 0) :
    (aclose_connection arq ev base_time false cur ws ep l).2 = true := by
  have hw1 : waitsnd arq { ep with is_closing := true } ≤ 0 := hw
  unfold aclose_connection
  by_cases h : ep.is_closing = true
  · simp [h]
  · have hd : drain_send arq ev base_time cur ws { ep with is_closing := true } l
        = (({ ep with is_closing := true }, l), true) := by
      unfold drain_send
      simp [hw1]
    simp only [h, if_false, Bool.false_eq_true, hd, if_true]
    split_ifs <;> rfl

/-- C5, counterexample: on the sample multiplexer a first
`remove_connection(1, 7)` is suspended in its drain loop.  A second
`remove_connection(1, 7)` returns, and afterwards `find(1, 7)` still returns
the endpoint, whose timer handle is pending (`timer_reg.id = 0`). -/
theorem remove_connection_while_draining :
    (remove_connection window_arq timer_store_loop 5000 [] busy_impl 1 7).2 = false ∧
    (remove_connection window_arq timer_store_loop 7000 [] draining_impl 1 7).2 = true ∧
    find (remove_connection window_arq timer_store_loop 7000 [] draining_impl 1 7).1 1 7 ≠ none ∧
    (find (remove_connection window_arq timer_store_loop 7000 [] draining_impl 1 7).1 1 7).map
      (fun e => e.timer_reg.id) = some 0 := by
  decide

/-- C5 as amended.  When `find(addr, channel)` yields nothing,
`remove_connection` returns at once, changes nothing, and `find` still yields
nothing.  When it yields an endpoint whose closing flag is clear, then once
`remove_connection` has returned `find(addr, channel)` yields nothing and the
endpoint has no pending timer handle (`timer_reg.id < 0`); it does return, at
once, when no segment is waiting to be sent.  When the closing flag of the
endpoint is already set (an earlier close is still draining),
`remove_connection` returns at once and changes nothing, so `find` still
yields the endpoint. -/
theorem remove_connection_contract {K L : Type} (arq : ikcp_t K) (ev : event_loop_t L)
    (cur : microsecond_t) (ws : List wakeup_t) (s : rudp_impl_t K L) (addr : socket_addr_t)
    (channel : Int) :
    (find s addr channel = none →
      remove_connection arq ev cur ws s addr channel = (s, true)) ∧
    (∀ ep, find s addr channel = some ep → ep.is_closing = false →
      (remove_connection arq ev cur ws s addr channel).2 = true →
      find (remove_connection arq ev cur ws s addr channel).1 addr channel = none ∧
      ∃ ep1, lookup (remove_connection arq ev cur ws s addr channel).1.user_map addr channel
          = some ep1 ∧ ep1.timer_reg.id < 0) ∧
    (∀ ep, find s addr channel = some ep → ep.is_closing = false → waitsnd arq ep ≤ 0 →
      (remove_connection arq ev cur ws s addr channel).2 = true) ∧
    (∀ ep, find s addr channel = some ep → ep.is_closing = true →
      remove_connection arq ev cur ws s addr channel = (s, true)) := by
  refine ⟨?_, ?_, ?_, ?_⟩
  · intro h
    simp [remove_connection, h]
  · intro ep h hc hr
    have hl := (find_some_lookup s addr channel ep h).1
    simp only [remove_connection, h] at hr ⊢
    obtain ⟨h1, h2⟩ := aclose_connection_returned arq ev s.base_time false cur ws ep s.loops hc hr
    have h3 := lookup_map_set_same s.user_map addr channel ep
      (aclose_connection arq ev s.base_time false cur ws ep s.loops).1.1 hl
    exact ⟨find_closed _ addr channel _ h3 h1, _, h3, h2⟩
  · intro ep h _ hw
    simp only [remove_connection, h]
    exact aclose_connection_idle arq ev s.base_time cur ws ep s.loops hw
  · intro ep h hc
    have hl := (find_some_lookup s addr channel ep h).1
    simp [remove_connection, h, aclose_connection_closing arq ev s.base_time false cur ws ep
      s.loops hc, map_set_self s.user_map addr channel ep hl]

/-- Witness of C5 as amended: on the sample multiplexer with one segment
waiting, `remove_connection(1, 7)` returns after the timer callback has run
once, and then `find(1, 7)` yields nothing. -/
theorem remove_connection_contract_witness :
    find busy_impl 1 7 = some busy_endpoint ∧ busy_endpoint.is_closing = false ∧
    (remove_connection window_arq timer_store_loop 5000 [wakeup_t.timer_fired 16000 16000 16001]
      busy_impl 1 7).2 = true ∧
    find (remove_connection window_arq timer_store_loop 5000
      [wakeup_t.timer_fired 16000 16000 16001] busy_impl 1 7).1 1 7 = none :=
  ⟨by decide, rfl, by decide,
   ((remove_connection_contract window_arq timer_store_loop 5000
      [wakeup_t.timer_fired 16000 16000 16001] busy_impl 1 7).2.1 busy_endpoint
      (by decide) rfl (by decide)).1⟩

/-! ## Closing the multiplexer -/

theorem release_peer_released {K L : Type} (ev : event_loop_t L) (current : Nat)
    (ep : rudp_endpoint_t K) (l : L) : (release_peer ev current ep l).1.ikcp = none := by
  unfold release_peer
  cases h : ep.ikcp with
  | none => simpa using h
  | some k =>
    simp only []
    split_ifs <;> rfl

theorem release_chan_released {K L : Type} (ev : event_loop_t L) (current : Nat)
    (m : chan_map_t K) :
    ∀ l : L, (∀ c e, (c, e) ∈ (release_chan ev current m l).1 → e.ikcp = none) ∧
      (release_chan ev current m l).1.map Prod.fst = m.map Prod.fst := by
  induction m with
  | nil =>
    intro l
    simp [release_chan]
  | cons p t ih =>
    intro l
    obtain ⟨c0, e0⟩ := p
    obtain ⟨h1, h2⟩ := ih (release_peer ev current e0 l).2
    constructor
    · intro c e hm
      simp only [release_chan, List.mem_cons, Prod.mk.injEq] at hm
      rcases hm with ⟨_, he⟩ | hm
      · rw [he]
        exact release_peer_released ev current e0 l
      · exact h1 c e hm
    · simp [release_chan, h2]

theorem release_all_released {K L : Type} (ev : event_loop_t L) (current : Nat)
    (um : user_map_t K) :
    ∀ l : L,
      (∀ a m c e, (a, m) ∈ (release_all ev current um l).1 → (c, e) ∈ m → e.ikcp = none) ∧
      (release_all ev current um l).1.map (fun p => (p.1, p.2.map Prod.fst))
        = um.map (fun p => (p.1, p.2.map Prod.fst)) := by
  induction um with
  | nil =>
    intro l
    simp [release_all]
  | cons p t ih =>
    intro l
    obtain ⟨a0, m0⟩ := p
    obtain ⟨h1, h2⟩ := ih (release_chan ev current m0 l).2
    obtain ⟨h3, h4⟩ := release_chan_released ev current m0 l
    constructor
    · intro a m c e hm hc
      simp only [release_all, List.mem_cons, Prod.mk.injEq] at hm
      rcases hm with ⟨_, hm⟩ | hm
      · rw [hm] at hc
        exact h3 c e hc
      · exact h1 a m c e hm hc
    · simp [release_all, h2, h4]

/-- C8, counterexample: the sample multiplexer after `close()` followed by
`add_connection(1, 7, ...)` has no socket and one registered endpoint; a
further `close()` returns at its first test, so afterwards the registry still
holds the endpoint and its ARQ state has not been released. -/
theorem close_unbound_keeps_registry :
    unbound_impl.socket = none ∧
    (close timer_store_loop 0 unbound_impl).user_map ≠ [] ∧
    (find (close timer_store_loop 0 unbound_impl) 1 7).map (fun e => e.ikcp.isSome) = some true := by
  decide

/-- C8 as amended: `close()` is idempotent, `close(); close()` leaves the
state a single `close()` leaves, and after `close()` `is_bind()` is false.
When the multiplexer holds its socket on entry, `close()` releases the ARQ
state of every endpoint of the registry and leaves the registry empty.  When
the socket is already null, `close()` changes nothing. -/
theorem close_idempotent {K L : Type} (ev : event_loop_t L) (c1 c2 : Nat) (s : rudp_impl_t K L) :
    close ev c2 (close ev c1 s) = close ev c1 s ∧
    is_bind (close ev c1 s) = false ∧
    (is_bind s = true →
      (close ev c1 s).user_map = [] ∧
      (close ev c1 s).loops = (release_all ev c1 s.user_map s.loops).2 ∧
      (∀ a m c e, (a, m) ∈ (release_all ev c1 s.user_map s.loops).1 → (c, e) ∈ m →
        e.ikcp = none) ∧
      (release_all ev c1 s.user_map s.loops).1.map (fun p => (p.1, p.2.map Prod.fst))
        = s.user_map.map (fun p => (p.1, p.2.map Prod.fst))) ∧
    (is_bind s = false → close ev c1 s = s) := by
  cases hs : s.socket with
  | none => simp [close, is_bind, hs]
  | some fd =>
    obtain ⟨h1, h2⟩ := release_all_released ev c1 s.user_map s.loops
    simp only [close, is_bind, hs, close_all_peer]
    exact ⟨by trivial, by trivial, fun _ => ⟨by trivial, by trivial, h1, h2⟩, by simp⟩

/-- Witness of C8 as amended: the sample multiplexer is bound, and `close()`
leaves its registry empty. -/
theorem close_idempotent_witness :
    is_bind open_impl = true ∧ (close timer_store_loop 0 open_impl).user_map = [] :=
  ⟨rfl, ((close_idempotent timer_store_loop 0 0 open_impl).2.2.1 rfl).1⟩

/-! ## Configuration -/

/-- C9: for a connection that `find` yields, `config(conn, level)` replaces the
ARQ state `k` of the endpoint by `ikcp_nodelay(k, 1, 10, 2, 1)` for level 0,
by `ikcp_nodelay(k, 1, 20, 3, 1)` for level 1 and by
`ikcp_nodelay(k, 0, 50, 0, 0)` for level 2 (the arguments being nodelay,
interval, fastresend and nc), and changes nothing else of the multiplexer; for
a connection with no endpoint it changes nothing at all. -/
theorem config_levels {K L : Type} (arq : ikcp_t K) (s : rudp_impl_t K L)
    (conn : rudp_connection_t) :
    (∀ level, find_conn s conn = none → config arq s conn level = s) ∧
    (∀ ep, find_conn s conn = some ep → ∃ k, ep.ikcp = some k ∧
      find_conn (config arq s conn 0) conn
        = some { ep with ikcp := some (arq.ikcp_nodelay k 1 10 2 1) } ∧
      find_conn (config arq s conn 1) conn
        = some { ep with ikcp := some (arq.ikcp_nodelay k 1 20 3 1) } ∧
      find_conn (config arq s conn 2) conn
        = some { ep with ikcp := some (arq.ikcp_nodelay k 0 50 0 0) } ∧
      ∀ level,
        (config arq s conn level).socket = s.socket ∧
        (config arq s conn level).base_time = s.base_time ∧
        (config arq s conn level).loops = s.loops ∧
        ∀ a c, a ≠ conn.address ∨ c ≠ conn.channel →
          lookup (config arq s conn level).user_map a c = lookup s.user_map a c) := by
  constructor
  · intro level h
    simp [config, h]
  · intro ep h
    obtain ⟨hl, k, hk⟩ := find_some_lookup s conn.address conn.channel ep h
    refine ⟨k, hk, ?_, ?_, ?_, ?_⟩
    · simpa [config, h, hk] using
        find_written s conn.address conn.channel ep
          { ep with ikcp := some (arq.ikcp_nodelay k 1 10 2 1) } _ s.loops h rfl
    · simpa [config, h, hk] using
        find_written s conn.address conn.channel ep
          { ep with ikcp := some (arq.ikcp_nodelay k 1 20 3 1) } _ s.loops h rfl
    · simpa [config, h, hk] using
        find_written s conn.address conn.channel ep
          { ep with ikcp := some (arq.ikcp_nodelay k 0 50 0 0) } _ s.loops h rfl
    · intro level
      simp only [config, h, hk]
      refine ⟨by trivial, by trivial, by trivial, ?_⟩
      intro a c hac
      exact lookup_map_set_other s.user_map conn.address a conn.channel c _ hac

/-- Witness of C9 on the sample multiplexer, whose ARQ core records the mode
parameters it is given: after `config(conn, 0)` they are (1, 10, 2, 1), after
`config(conn, 2)` they are (0, 50, 0, 0). -/
theorem config_levels_witness :
    find_conn open_impl { address := 1, channel := 7 } = some open_endpoint ∧
    (find_conn (config window_arq open_impl { address := 1, channel := 7 } 0)
      { address := 1, channel := 7 }).map (fun e => e.ikcp.map (fun k => k.mode))
      = some (some (1, 10, 2, 1)) ∧
    (find_conn (config window_arq open_impl { address := 1, channel := 7 } 2)
      { address := 1, channel := 7 }).map (fun e => e.ikcp.map (fun k => k.mode))
      = some (some (0, 50, 0, 0)) :=
  ⟨by decide,
   by
    obtain ⟨k, hk, h0, _, _, _⟩ :=
      (config_levels window_arq open_impl { address := 1, channel := 7 }).2 open_endpoint
        (by decide)
    have hk1 : k = { pending := 0, mode := (1, 20, 3, 1), inbox := [] } :=
      (Option.some.inj hk).symm
    subst hk1
    rw [h0]
    rfl,
   by decide⟩

/-! ## Cooperative dispatcher -/

theorem dispatch_returns_empty (co : List co_resume_t → co_resume_t → List dispatcher_call_t)
    (fuel : Nat) :
    ∀ (past : List co_resume_t) (d : execute_thread_dispatcher_t)
      (r : List co_resume_t × execute_thread_dispatcher_t),
      dispatch co fuel past d = some r →
        r.2.co_wait_for_resume = [] ∧ r.2.cancel_contexts = [] := by
  induction fuel with
  | zero =>
    intro past d r h
    unfold dispatch at h
    cases hq : d.co_wait_for_resume with
    | nil =>
      simp only [hq, Option.some.injEq] at h
      subst h
      exact ⟨rfl, rfl⟩
    | cons e t => simp [hq] at h
  | succ n ih =>
    intro past d r h
    unfold dispatch at h
    cases hq : d.co_wait_for_resume with
    | nil =>
      simp only [hq, Option.some.injEq] at h
      subst h
      exact ⟨rfl, rfl⟩
    | cons e t =>
      simp only [hq] at h
      split_ifs at h
      · exact ih _ _ r h
      · exact ih _ _ r h

theorem dispatch_quiet (co : List co_resume_t → co_resume_t → List dispatcher_call_t)
    (cancel : List Nat) (q : List exec_t) :
    ∀ (fuel : Nat) (past : List co_resume_t), q.length ≤ fuel →
      (∀ p e, e ∈ q → co p (resume_call e) = []) →
      dispatch co fuel past { co_wait_for_resume := q, cancel_contexts := cancel }
        = some (past ++ (q.filter (fun e => decide (e.executor ∉ cancel))).map resume_call,
                { co_wait_for_resume := [], cancel_contexts := [] }) := by
  induction q with
  | nil =>
    intro fuel past _ _
    unfold dispatch
    simp
  | cons e t ih =>
    intro fuel past hf hq
    cases fuel with
    | zero => simp at hf
    | succ n =>
      have hn : t.length ≤ n := by simpa using hf
      have hq1 : ∀ p x, x ∈ t → co p (resume_call x) = [] :=
        fun p x hx => hq p x (List.mem_cons_of_mem e hx)
      unfold dispatch
      by_cases hc : e.executor ∈ cancel
      · simp only [hc, if_true]
        rw [ih n past hn hq1]
        simp [hc]
      · simp only [hc, if_false, hq past e (List.mem_cons_self e t), apply_calls]
        rw [ih n _ hn hq1]
        simp [hc]

theorem apply_calls_split (calls : List dispatcher_call_t) :
    ∀ (q : List exec_t) (cancel : List Nat),
      (apply_calls calls { co_wait_for_resume := q, cancel_contexts := cancel }).co_wait_for_resume
        = q ++ added calls ∧
      ∀ x, x ∈ (apply_calls calls
            { co_wait_for_resume := q, cancel_contexts := cancel }).cancel_contexts
          ↔ x ∈ cancel ∨ x ∈ cancelled calls := by
  induction calls with
  | nil =>
    intro q cancel
    simp [apply_calls, added, cancelled]
  | cons call t ih =>
    intro q cancel
    cases call with
    | add c f =>
      obtain ⟨h1, h2⟩ := ih (q ++ [{ executor := c, fn := f }]) cancel
      simp only [apply_calls, execute_thread_dispatcher_t.add, added, cancelled]
      exact ⟨by simp [h1], h2⟩
    | cancel c =>
      simp only [apply_calls, execute_thread_dispatcher_t.cancel, added, cancelled]
      by_cases hc : c ∈ cancel
      · obtain ⟨h1, h2⟩ := ih q cancel
        simp only [hc, if_true]
        refine ⟨h1, fun x => ?_⟩
        rw [h2 x, List.mem_cons]
        constructor
        · rintro (h | h)
          · exact Or.inl h
          · exact Or.inr (Or.inr h)
        · rintro (h | h | h)
          · exact Or.inl h
          · exact Or.inl (h ▸ hc)
          · exact Or.inr h
      · obtain ⟨h1, h2⟩ := ih q (c :: cancel)
        simp only [hc, if_false]
        refine ⟨h1, fun x => ?_⟩
        rw [h2 x, List.mem_cons, List.mem_cons]
        constructor
        · rintro ((h | h) | h)
          · exact Or.inr (Or.inl h)
          · exact Or.inl h
          · exact Or.inr (Or.inr h)
        · rintro (h | h | h)
          · exact Or.inl (Or.inr h)
          · exact Or.inl (Or.inl h)
          · exact Or.inr h

/-- C6, counterexample: contexts 1, 3 and 5 are queued and the cancel set is
empty, so the queued entries whose context is not in the cancel set are 1, 3
and 5.  The coroutine of context 1, when resumed, cancels context 3 and
enqueues context 4.  `dispatch()` then resumes 1, 5 and 4: context 3 is
skipped and context 4 is resumed in the same pass. -/
theorem dispatch_reentrant_calls :
    cancel_then_add [] (co_resume_t.resume 1)
      = [dispatcher_call_t.cancel 3, dispatcher_call_t.add 4 none] ∧
    dispatch cancel_then_add 4 []
        { co_wait_for_resume :=
            [{ executor := 1, fn := none }, { executor := 3, fn := none },
             { executor := 5, fn := none }],
          cancel_contexts := [] }
      = some ([co_resume_t.resume 1, co_resume_t.resume 5, co_resume_t.resume 4],
              { co_wait_for_resume := [], cancel_contexts := [] }) ∧
    dispatch cancel_then_add 4 []
        { co_wait_for_resume :=
            [{ executor := 1, fn := none }, { executor := 3, fn := none },
             { executor := 5, fn := none }],
          cancel_contexts := [] }
      ≠ some ((([{ executor := 1, fn := none }, { executor := 3, fn := none },
                 { executor := 5, fn := none }] : List exec_t).filter
                (fun e => decide (e.executor ∉ ([] : List Nat)))).map resume_call,
              { co_wait_for_resume := [], cancel_contexts := [] }) := by
  decide

/-- C6 as amended: `dispatch()` resumes the entries enqueued by `add` in FIFO
order.  Take any queue and cancel set and any further `add` and `cancel` calls
made before the pass.  In a pass during which no resumed coroutine calls `add`
or `cancel` on the dispatcher, `dispatch` returns (fuel for one turn per queued
entry is enough) and the sequence of resumptions is exactly the queued
entries, in insertion order, whose context is not in the cancel set, each
resumed by `resume_with(fn)` when it carries a function and by `resume`
otherwise; the queue and the cancel set are then empty.  Whatever the
coroutines do, the queue and the cancel set are empty whenever `dispatch`
returns. -/
theorem dispatch_fifo (co : List co_resume_t → co_resume_t → List dispatcher_call_t)
    (q : List exec_t) (cancel : List Nat) (calls : List dispatcher_call_t) (fuel : Nat)
    (hfuel : (q ++ added calls).length ≤ fuel)
    (hquiet : ∀ p e, e ∈ q ++ added calls → co p (resume_call e) = []) :
    dispatch co fuel []
        (apply_calls calls { co_wait_for_resume := q, cancel_contexts := cancel })
      = some (((q ++ added calls).filter
                (fun e => decide (e.executor ∉ cancel ∧ e.executor ∉ cancelled calls))).map
                resume_call,
              { co_wait_for_resume := [], cancel_contexts := [] }) ∧
    (∀ e, resume_call e = match e.fn with
        | some f => co_resume_t.resume_with e.executor f
        | none => co_resume_t.resume e.executor) ∧
    (∀ (co1 : List co_resume_t → co_resume_t → List dispatcher_call_t) (n : Nat)
        (d : execute_thread_dispatcher_t) (r : List co_resume_t × execute_thread_dispatcher_t),
      dispatch co1 n [] d = some r →
        r.2.co_wait_for_resume = [] ∧ r.2.cancel_contexts = []) := by
  refine ⟨?_, fun e => rfl, fun co1 n d r h => dispatch_returns_empty co1 n [] d r h⟩
  obtain ⟨h1, h2⟩ := apply_calls_split calls q cancel
  have hd : apply_calls calls { co_wait_for_resume := q, cancel_contexts := cancel }
      = { co_wait_for_resume := q ++ added calls,
          cancel_contexts := (apply_calls calls
            { co_wait_for_resume := q, cancel_contexts := cancel }).cancel_contexts } := by
    rw [← h1]
  rw [hd, dispatch_quiet co _ (q ++ added calls) fuel [] hfuel hquiet]
  have hf : (q ++ added calls).filter
        (fun e => decide (e.executor ∉ (apply_calls calls
          { co_wait_for_resume := q, cancel_contexts := cancel }).cancel_contexts))
      = (q ++ added calls).filter
        (fun e => decide (e.executor ∉ cancel ∧ e.executor ∉ cancelled calls)) := by
    apply List.filter_congr
    intro e _
    have := h2 e.executor
    by_cases hc : e.executor ∈ cancel <;> by_cases hc1 : e.executor ∈ cancelled calls <;>
      simp [this, hc, hc1]
  rw [hf]
  simp

/-- Witness of C6 as amended: three entries are enqueued by `add`, the second
carrying a function and cancelled before the pass; the others are resumed in
the order of their insertion. -/
theorem dispatch_fifo_witness :
    dispatch no_calls 3 []
        (apply_calls
          [dispatcher_call_t.add 1 (some 9), dispatcher_call_t.add 2 (some 5),
           dispatcher_call_t.cancel 2, dispatcher_call_t.add 3 none]
          { co_wait_for_resume := [], cancel_contexts := [] })
      = some ([co_resume_t.resume_with 1 9, co_resume_t.resume 3],
              { co_wait_for_resume := [], cancel_contexts := [] }) :=
  (dispatch_fifo no_calls [] []
    [dispatcher_call_t.add 1 (some 9), dispatcher_call_t.add 2 (some 5),
     dispatcher_call_t.cancel 2, dispatcher_call_t.add 3 none] 3 (by decide)
    (fun _ _ _ => rfl)).1

/-- C11, counterexample: on the sample multiplexer address 1 is registered
under channel 7 only, and the installed handler, if asked about address 1,
would register channel 9 and answer true.  For a datagram from address 1 with
conv 9 the pair is absent, yet `check_unknown` returns false without calling
the handler. -/
theorem check_unknown_known_address :
    lookup open_impl.user_map 1 9 = none ∧
    (register_nine 1 open_impl).1 = true ∧
    (lookup (register_nine 1 open_impl).2.user_map 1 9).isSome = true ∧
    (check_unknown (some register_nine) open_impl 1 9).map (fun r => (r.accepted, r.asked))
      = some (false, []) := by
  decide

/-- C11 as amended: whenever the source address has an entry in the registry
or a handler is installed, `check_unknown(source, conv)` returns, and it
accepts the datagram if and only if either (a) the registry holds an endpoint
for (source, conv), or (b) the registry holds no entry at all for the source
address, a handler is installed, it answers true for the source address, and
the registry holds an endpoint for (source, conv) when it has returned.  The
handler is called, once and with the source address, exactly when the address
has no entry; when the address is known, under this or another channel, the
handler is not called and nothing changes.  On acceptance the endpoint handed
back is the one the registry holds. -/
theorem check_unknown_contract {K L : Type}
    (unknown_handler : Option (socket_addr_t → rudp_impl_t K L → Bool × rudp_impl_t K L))
    (s : rudp_impl_t K L) (target : socket_addr_t) (conv : Int)
    (hdef : addr_find s.user_map target ≠ none ∨ unknown_handler ≠ none) :
    ∃ r, check_unknown unknown_handler s target conv = some r ∧
      (r.accepted = true ↔
        lookup s.user_map target conv ≠ none ∨
        (addr_find s.user_map target = none ∧
          ∃ f, unknown_handler = some f ∧ (f target s).1 = true ∧
            lookup (f target s).2.user_map target conv ≠ none)) ∧
      (addr_find s.user_map target = none → r.asked = [target]) ∧
      (addr_find s.user_map target ≠ none → r.asked = [] ∧ r.state = s) ∧
      (r.accepted = true →
        r.endpoint = lookup r.state.user_map target conv ∧ r.endpoint ≠ none) := by
  cases ha : addr_find s.user_map target with
  | some m =>
    cases hc : chan_find m conv with
    | none =>
      have hl : lookup s.user_map target conv = none := by simp [lookup, ha, hc]
      refine ⟨{ accepted := false, endpoint := none, state := s, asked := [] },
        by simp [check_unknown, ha, hc], ⟨fun h => absurd h (by simp), ?_⟩,
        fun h => absurd h (by simp), fun _ => ⟨rfl, rfl⟩, fun h => absurd h (by simp)⟩
      rintro (h | ⟨h, _⟩)
      · exact absurd hl h
      · exact absurd h (by simp)
    | some e =>
      have hl : lookup s.user_map target conv = some e := by simp [lookup, ha, hc]
      exact ⟨{ accepted := true, endpoint := some e, state := s, asked := [] },
        by simp [check_unknown, ha, hc], ⟨fun _ => Or.inl (by simp [hl]), fun _ => rfl⟩,
        fun h => absurd h (by simp), fun _ => ⟨rfl, rfl⟩, fun _ => ⟨hl.symm, by simp⟩⟩
  | none =>
    have hl : lookup s.user_map target conv = none := by simp [lookup, ha]
    cases hh : unknown_handler with
    | none => simp [ha, hh] at hdef
    | some f =>
      cases hr : (f target s).1 with
      | false =>
        refine ⟨{ accepted := false, endpoint := none, state := (f target s).2,
                  asked := [target] },
          by simp [check_unknown, ha, hr], ⟨fun h => absurd h (by simp), ?_⟩,
          fun _ => rfl, fun h => absurd rfl h, fun h => absurd h (by simp)⟩
        rintro (h | ⟨_, g, hg, hg1, _⟩)
        · exact absurd hl h
        · have hfg : f = g := Option.some.inj hg
          subst hfg
          rw [hr] at hg1
          exact absurd hg1 (by simp)
      | true =>
        cases ha1 : addr_find (f target s).2.user_map target with
        | none =>
          refine ⟨{ accepted := false, endpoint := none, state := (f target s).2,
                    asked := [target] },
            by simp [check_unknown, ha, hr, ha1], ⟨fun h => absurd h (by simp), ?_⟩,
            fun _ => rfl, fun h => absurd rfl h, fun h => absurd h (by simp)⟩
          rintro (h | ⟨_, g, hg, _, hg2⟩)
          · exact absurd hl h
          · have hfg : f = g := Option.some.inj hg
            subst hfg
            exact absurd (by simp [lookup, ha1]) hg2
        | some m =>
          cases hc : chan_find m conv with
          | none =>
            refine ⟨{ accepted := false, endpoint := none, state := (f target s).2,
                      asked := [target] },
              by simp [check_unknown, ha, hr, ha1, hc], ⟨fun h => absurd h (by simp), ?_⟩,
              fun _ => rfl, fun h => absurd rfl h, fun h => absurd h (by simp)⟩
            rintro (h | ⟨_, g, hg, _, hg2⟩)
            · exact absurd hl h
            · have hfg : f = g := Option.some.inj hg
              subst hfg
              exact absurd (by simp [lookup, ha1, hc]) hg2
          | some e =>
            have hl1 : lookup (f target s).2.user_map target conv = some e := by
              simp [lookup, ha1, hc]
            exact ⟨{ accepted := true, endpoint := some e, state := (f target s).2,
                     asked := [target] },
              by simp [check_unknown, ha, hr, ha1, hc],
              ⟨fun _ => Or.inr ⟨rfl, f, rfl, hr, by simp [hl1]⟩, fun _ => rfl⟩,
              fun _ => rfl, fun h => absurd rfl h, fun _ => ⟨hl1.symm, by simp⟩⟩

/-- Witness of C11 as amended: address 2 has no entry, the handler installed
registers channel 9 for it and answers true, so a datagram from address 2
with conv 9 is accepted after one call of the handler. -/
theorem check_unknown_contract_witness :
    addr_find open_impl.user_map 2 = none ∧
    ∃ r, check_unknown (some register_nine) open_impl 2 9 = some r ∧
      r.accepted = true ∧ r.asked = [2] :=
  ⟨by decide,
   (check_unknown_contract (some register_nine) open_impl 2 9 (Or.inr (by simp))).imp
     (fun _ h => ⟨h.1,
       h.2.1.mpr (Or.inr ⟨by decide, register_nine, rfl, by decide, by decide⟩),
       h.2.2.1 (by decide)⟩)⟩

/-! ## Re-arming the timer -/

theorem set_timer_unfold {K L : Type} (arq : ikcp_t K) (ev : event_loop_t L)
    (base_time cur : microsecond_t) (ep : rudp_endpoint_t K) (l : L) (k : K)
    (hk : ep.ikcp = some k) :
    set_timer arq ev base_time cur ep l
      = if 0 ≤ ep.timer_reg.id ∧
            ep.timer_reg.timepoint ≤ (timer_time_point arq base_time cur k + 5000) % U64 ∧
            (timer_time_point arq base_time cur k + U64 - 5000) % U64 ≤ ep.timer_reg.timepoint
        then (ep, l)
        else
          ({ ep with
              timer_reg := (ev.add_timer
                (if 0 ≤ ep.timer_reg.id then ev.remove_timer l ep.econtext ep.timer_reg else l)
                ep.econtext (timer_delta arq base_time cur k)).1 },
           (ev.add_timer
              (if 0 ≤ ep.timer_reg.id then ev.remove_timer l ep.econtext ep.timer_reg else l)
              ep.econtext (timer_delta arq base_time cur k)).2) := by
  unfold set_timer timer_time_point timer_delta
  simp only [hk]

/-- What `set_timer` does on an endpoint with a pending handle: nothing when
the handle is due within 5000 microseconds of `time_point`, which is the delay
plus the current time plus `base_time`; otherwise one `remove_timer` of the
handle followed by one `add_timer` with the delay. -/
theorem set_timer_pending {K L : Type} (arq : ikcp_t K) (ev : event_loop_t L)
    (base_time cur : microsecond_t) (ep : rudp_endpoint_t K) (l : L) (k : K)
    (hk : ep.ikcp = some k) (hid : 0 ≤ ep.timer_reg.id) :
    ((ep.timer_reg.timepoint ≤ (timer_time_point arq base_time cur k + 5000) % U64 ∧
        (timer_time_point arq base_time cur k + U64 - 5000) % U64 ≤ ep.timer_reg.timepoint) →
      set_timer arq ev base_time cur ep l = (ep, l)) ∧
    (¬ (ep.timer_reg.timepoint ≤ (timer_time_point arq base_time cur k + 5000) % U64 ∧
        (timer_time_point arq base_time cur k + U64 - 5000) % U64 ≤ ep.timer_reg.timepoint) →
      set_timer arq ev base_time cur ep l
        = ({ ep with
              timer_reg := (ev.add_timer (ev.remove_timer l ep.econtext ep.timer_reg)
                ep.econtext (timer_delta arq base_time cur k)).1 },
           (ev.add_timer (ev.remove_timer l ep.econtext ep.timer_reg)
              ep.econtext (timer_delta arq base_time cur k)).2)) := by
  rw [set_timer_unfold arq ev base_time cur ep l k hk]
  constructor
  · intro h
    simp [hid, h]
  · intro h
    simp [hid, h]

/-- C12, evaluation at the failing input: the multiplexer was constructed at
time 1000000 and the current time is 1004000.  A first `set_timer` registers
timer 0, due at 1014000.  A second `set_timer` at the same current time
computes the same delay, so the new fire time, current time plus delay, is
again 1014000, the very time point of the pending handle; yet it removes
timer 0 and registers timer 1, because it compares the handle with
1014000 + 1000000. -/
theorem set_timer_rearms_same_fire_time :
    (set_timer window_arq (clocked_loop 1004000) 1000000 1004000 open_endpoint
      { next_id := 0, timers := [] })
      = ({ open_endpoint with timer_reg := { id := 0, timepoint := 1014000 } },
         { next_id := 1, timers := [(0, { id := 0, timepoint := 1014000 })] }) ∧
    1004000 + timer_delta window_arq 1000000 1004000
        { pending := 0, mode := (1, 20, 3, 1), inbox := [] } = 1014000 ∧
    timer_time_point window_arq 1000000 1004000
        { pending := 0, mode := (1, 20, 3, 1), inbox := [] } = 2014000 ∧
    (set_timer window_arq (clocked_loop 1004000) 1000000 1004000
      { open_endpoint with timer_reg := { id := 0, timepoint := 1014000 } }
      { next_id := 1, timers := [(0, { id := 0, timepoint := 1014000 })] })
      = ({ open_endpoint with timer_reg := { id := 1, timepoint := 1014000 } },
         { next_id := 2, timers := [(0, { id := 1, timepoint := 1014000 })] }) := by
  decide

/-! ## The delay handed to the timer -/

theorem U64_eq : U64 = 18446744073709551616 := by
  unfold U64
  norm_num

theorem U32_eq : U32 = 4294967296 := by
  unfold U32
  norm_num

theorem timer_delta_exact {K : Type} (arq : ikcp_t K) (base_time cur : Nat) (k : K)
    (hb : base_time ≤ cur) (h64 : cur < U64) (hms : (cur - base_time) / 1000 < U32) :
    (cur + U64 - base_time) % U64 = cur - base_time ∧
    timer_delta arq base_time cur k
      = 1000 * (arq.ikcp_check k ((cur - base_time) / 1000) % U32 - (cur - base_time) / 1000) ∧
    1000 * (arq.ikcp_check k ((cur - base_time) / 1000) % U32 - (cur - base_time) / 1000)
      < U64 := by
  have h1 : (cur + U64 - base_time) % U64 = cur - base_time := by
    rw [U64_eq] at h64 ⊢
    omega
  have h2 : (cur - base_time) / 1000 % U32 = (cur - base_time) / 1000 := Nat.mod_eq_of_lt hms
  refine ⟨h1, ?_, ?_⟩
  · unfold timer_delta
    simp only [h1, h2]
    generalize arq.ikcp_check k ((cur - base_time) / 1000) = c0
    generalize (cur - base_time) / 1000 = now at hms ⊢
    rw [U32_eq] at hms
    rw [U64_eq, U32_eq]
    show @Eq Nat _ _
    split_ifs <;> omega
  · generalize arq.ikcp_check k ((cur - base_time) / 1000) = c0
    generalize (cur - base_time) / 1000 = now at hms ⊢
    rw [U32_eq] at hms
    rw [U64_eq, U32_eq]
    omega

/-- C14: for a current time `cur >= base_time` whose millisecond clock
`now_ms = (cur - base_time) / 1000` is below `2^32`, and `c` the `IUINT32`
that `ikcp_check` returns for `now_ms`, the delay `set_timer` computes is
`1000 * max(0, c - now_ms)`: it is 0 when `c` lies in the past, the
subtraction `cur - base_time` is exact, and the product is below `2^64`, so
nothing wraps around.  That delay is what `set_timer` hands to `add_timer`
whenever it registers a timer. -/
theorem set_timer_delay {K L : Type} (arq : ikcp_t K) (ev : event_loop_t L)
    (base_time cur : Nat) (ep : rudp_endpoint_t K) (l : L) (k : K)
    (hk : ep.ikcp = some k) (hb : base_time ≤ cur) (h64 : cur < U64)
    (hms : (cur - base_time) / 1000 < U32) :
    ((timer_delta arq base_time cur k : Nat) : Int)
      = 1000 * max 0 (((arq.ikcp_check k ((cur - base_time) / 1000) % U32 : Nat) : Int)
                        - (((cur - base_time) / 1000 : Nat) : Int)) ∧
    (arq.ikcp_check k ((cur - base_time) / 1000) % U32 < (cur - base_time) / 1000 →
      timer_delta arq base_time cur k = 0) ∧
    (cur + U64 - base_time) % U64 = cur - base_time ∧
    1000 * (arq.ikcp_check k ((cur - base_time) / 1000) % U32 - (cur - base_time) / 1000)
      < U64 ∧
    (set_timer arq ev base_time cur ep l = (ep, l) ∨
     set_timer arq ev base_time cur ep l
       = ({ ep with
             timer_reg := (ev.add_timer
               (if 0 ≤ ep.timer_reg.id then ev.remove_timer l ep.econtext ep.timer_reg else l)
               ep.econtext
               (1000 * (arq.ikcp_check k ((cur - base_time) / 1000) % U32
                          - (cur - base_time) / 1000))).1 },
          (ev.add_timer
             (if 0 ≤ ep.timer_reg.id then ev.remove_timer l ep.econtext ep.timer_reg else l)
             ep.econtext
             (1000 * (arq.ikcp_check k ((cur - base_time) / 1000) % U32
                        - (cur - base_time) / 1000))).2)) := by
  obtain ⟨h1, h2, h3⟩ := timer_delta_exact arq base_time cur k hb h64 hms
  refine ⟨?_, ?_, h1, h3, ?_⟩
  · rw [h2]
    generalize arq.ikcp_check k ((cur - base_time) / 1000) % U32 = c
    generalize (cur - base_time) / 1000 = now
    rcases Nat.lt_or_ge c now with h | h
    · have hz : c - now = 0 := by omega
      rw [hz, max_eq_left (by omega)]
      simp
    · rw [max_eq_right (by omega)]
      push_cast [Nat.cast_sub h]
      ring
  · intro h
    rw [h2]
    show @Eq Nat _ _
    omega
  · rw [set_timer_unfold arq ev base_time cur ep l k hk, h2]
    by_cases hskip : 0 ≤ ep.timer_reg.id ∧
        ep.timer_reg.timepoint ≤ (timer_time_point arq base_time cur k + 5000) % U64 ∧
        (timer_time_point arq base_time cur k + U64 - 5000) % U64 ≤ ep.timer_reg.timepoint
    · rw [if_pos hskip]
      exact Or.inl rfl
    · rw [if_neg hskip]
      exact Or.inr rfl

/-- Witness of C14: the multiplexer was constructed at time 1000, the current
time is 5000 and the ARQ core asks for a tick at millisecond 14, so the delay
is 10000 microseconds. -/
theorem set_timer_delay_witness :
    (1000 : Nat) ≤ 5000 ∧ (5000 - 1000) / 1000 < U32 ∧
    ((timer_delta window_arq 1000 5000
        { pending := 0, mode := (1, 20, 3, 1), inbox := [] } : Nat) : Int)
      = 1000 * max 0 (((window_arq.ikcp_check
            { pending := 0, mode := (1, 20, 3, 1), inbox := [] } ((5000 - 1000) / 1000) % U32
              : Nat) : Int) - (((5000 - 1000) / 1000 : Nat) : Int)) :=
  ⟨by decide, by decide,
   (set_timer_delay window_arq timer_store_loop 1000 5000 open_endpoint
      { next_id := 0, timers := [] } { pending := 0, mode := (1, 20, 3, 1), inbox := [] }
      rfl (by decide) (by decide) (by decide)).1⟩

/-! ## Released endpoints in the registry -/

theorem mem_chan_set {K : Type} (m : chan_map_t K) (ch c : Int) (e e1 : rudp_endpoint_t K)
    (h : (c, e) ∈ chan_set m ch e1) : (c, e) ∈ m ∨ e = e1 := by
  induction m with
  | nil => simp [chan_set] at h
  | cons p t ih =>
    obtain ⟨c0, x⟩ := p
    by_cases hc : c0 = ch
    · simp only [chan_set, hc, if_true, List.mem_cons, Prod.mk.injEq] at h
      rcases h with ⟨_, h⟩ | h
      · exact Or.inr h
      · exact Or.inl (List.mem_cons_of_mem _ h)
    · simp only [chan_set, hc, if_false, List.mem_cons] at h
      rcases h with h | h
      · exact Or.inl (h ▸ List.mem_cons_self _ _)
      · rcases ih h with h1 | h1
        · exact Or.inl (List.mem_cons_of_mem _ h1)
        · exact Or.inr h1

theorem mem_map_set {K : Type} (um : user_map_t K) (addr a : socket_addr_t) (ch c : Int)
    (m : chan_map_t K) (e e1 : rudp_endpoint_t K)
    (h : (a, m) ∈ map_set um addr ch e1) (hc : (c, e) ∈ m) :
    (∃ m0, (a, m0) ∈ um ∧ (c, e) ∈ m0) ∨ e = e1 := by
  induction um with
  | nil => simp [map_set] at h
  | cons p t ih =>
    obtain ⟨a0, m0⟩ := p
    by_cases ha : a0 = addr
    · simp only [map_set, ha, if_true, List.mem_cons, Prod.mk.injEq] at h
      rcases h with ⟨h1, h2⟩ | h
      · rw [h2] at hc
        rcases mem_chan_set m0 ch c e e1 hc with h3 | h3
        · exact Or.inl ⟨m0, by simp [ha, h1], h3⟩
        · exact Or.inr h3
      · exact Or.inl ⟨m, List.mem_cons_of_mem _ h, hc⟩
    · simp only [map_set, ha, if_false, List.mem_cons] at h
      rcases h with h | h
      · exact Or.inl ⟨m, h ▸ List.mem_cons_self _ _, hc⟩
      · rcases ih h with ⟨m1, h1, h2⟩ | h1
        · exact Or.inl ⟨m1, List.mem_cons_of_mem _ h1, h2⟩
        · exact Or.inr h1

theorem mem_sweep_live {K : Type} (um : user_map_t K) (a : socket_addr_t) (c : Int)
    (m : chan_map_t K) (e : rudp_endpoint_t K) (h : (a, m) ∈ sweep um) (hc : (c, e) ∈ m) :
    e.ikcp.isSome = true := by
  simp only [sweep, List.mem_filter, List.mem_map] at h
  obtain ⟨⟨p, _, hp⟩, _⟩ := h
  have hm : m = p.2.filter (fun q => q.2.ikcp.isSome) := (congrArg Prod.snd hp).symm
  rw [hm, List.mem_filter] at hc
  exact hc.2

theorem add_connection_live {K L : Type} (arq : ikcp_t K) (s : rudp_impl_t K L)
    (addr : socket_addr_t) (channel : Int) (inactive_timeout : microsecond_t) (loop : Nat)
    (hf : find s addr channel = none) (a : socket_addr_t) (m : chan_map_t K) (c : Int)
    (e : rudp_endpoint_t K)
    (h : (a, m) ∈ (add_connection arq s addr channel inactive_timeout loop).user_map)
    (hc : (c, e) ∈ m) : e.ikcp.isSome = true := by
  simp only [add_connection, hf, config] at h
  split at h
  · exact mem_sweep_live _ a c m e h hc
  · split at h
    · exact mem_sweep_live _ a c m e h hc
    · rcases mem_map_set _ _ a _ c m e _ h hc with ⟨m0, h1, h2⟩ | h1
      · exact mem_sweep_live _ a c m0 e h1 h2
      · rw [h1]
        rfl

theorem set_timer_closing {K L : Type} (arq : ikcp_t K) (ev : event_loop_t L)
    (base_time cur : microsecond_t) (ep : rudp_endpoint_t K) (l : L) :
    (set_timer arq ev base_time cur ep l).1.is_closing = ep.is_closing := by
  unfold set_timer
  cases h : ep.ikcp with
  | none => simp
  | some k =>
    simp only []
    split_ifs <;> rfl

theorem wakeup_keeps {K L : Type} (arq : ikcp_t K) (ev : event_loop_t L)
    (base_time : microsecond_t) (w : wakeup_t) (ep : rudp_endpoint_t K) (l : L) :
    (wakeup arq ev base_time w ep l).1.is_closing = ep.is_closing ∧
    (wakeup arq ev base_time w ep l).1.ikcp.isSome = ep.ikcp.isSome := by
  cases w with
  | timer_fired t_update t_set cur =>
    simp only [wakeup, set_timer_closing, set_timer_ikcp]
    unfold update_endpoint
    cases h : ep.ikcp <;> simp [h]
  | datagram now d cur => simp [wakeup]

theorem drain_send_keeps {K L : Type} (arq : ikcp_t K) (ev : event_loop_t L)
    (base_time : microsecond_t) (ws : List wakeup_t) :
    ∀ (cur : microsecond_t) (ep : rudp_endpoint_t K) (l : L),
      (drain_send arq ev base_time cur ws ep l).1.1.is_closing = ep.is_closing ∧
      (drain_send arq ev base_time cur ws ep l).1.1.ikcp.isSome = ep.ikcp.isSome := by
  induction ws with
  | nil =>
    intro cur ep l
    unfold drain_send
    split_ifs
    · exact ⟨rfl, rfl⟩
    · simp [set_timer_closing, set_timer_ikcp]
  | cons w rest ih =>
    intro cur ep l
    unfold drain_send
    split_ifs
    · exact ⟨rfl, rfl⟩
    · simp only []
      obtain ⟨h1, h2⟩ := ih w.cur_time
        (wakeup arq ev base_time w
          { (set_timer arq ev base_time cur ep l).1 with wait_for_io := true }
          (set_timer arq ev base_time cur ep l).2).1
        (wakeup arq ev base_time w
          { (set_timer arq ev base_time cur ep l).1 with wait_for_io := true }
          (set_timer arq ev base_time cur ep l).2).2
      obtain ⟨h3, h4⟩ := wakeup_keeps arq ev base_time w
        { (set_timer arq ev base_time cur ep l).1 with wait_for_io := true }
        (set_timer arq ev base_time cur ep l).2
      rw [h1, h2, h3, h4]
      simp [set_timer_closing, set_timer_ikcp]

theorem aclose_connection_inactive {K L : Type} (arq : ikcp_t K) (ev : event_loop_t L)
    (base_time : microsecond_t) (fast_close : Bool) (cur : microsecond_t) (ws : List wakeup_t)
    (ep : rudp_endpoint_t K) (l : L) (hlive : ep.ikcp.isSome = true)
    (hr : (aclose_connection arq ev base_time fast_close cur ws ep l).1.1.ikcp = none) :
    (aclose_connection arq ev base_time fast_close cur ws ep l).1.1.is_closing = true ∧
    (aclose_connection arq ev base_time fast_close cur ws ep l).1.1.timer_reg.id < 0 := by
  unfold aclose_connection at hr ⊢
  by_cases hc : ep.is_closing = true
  · simp only [hc, if_true] at hr
    rw [hr] at hlive
    simp at hlive
  · have hc1 : ep.is_closing = false := by simpa using hc
    simp only [hc1, Bool.false_eq_true, if_false] at hr ⊢
    cases fast_close
    · simp only [Bool.false_eq_true, if_false] at hr ⊢
      obtain ⟨k1, k2⟩ := drain_send_keeps arq ev base_time ws cur
        { ep with is_closing := true } l
      cases hd : (drain_send arq ev base_time cur ws { ep with is_closing := true } l).2
      · simp only [hd, Bool.false_eq_true, if_false] at hr
        rw [hr] at k2
        simp [hlive] at k2
      · simp only [if_true]
        split_ifs with h1
        · simpa using k1
        · exact ⟨k1, not_le.mp h1⟩
    · simp only [if_true]
      split_ifs with h1
      · simp
      · exact ⟨rfl, not_le.mp h1⟩

theorem released_inactive_map_set {K L : Type} (s : rudp_impl_t K L) (addr : socket_addr_t)
    (channel : Int) (e1 : rudp_endpoint_t K) (l1 : L) (hs : released_inactive s)
    (h1 : e1.ikcp = none → e1.is_closing = true ∧ e1.timer_reg.id < 0) :
    released_inactive
      ({ s with user_map := map_set s.user_map addr channel e1, loops := l1 } :
        rudp_impl_t K L) := by
  intro a m c e hm hc hn
  rcases mem_map_set s.user_map addr a channel c m e e1 hm hc with ⟨m0, h2, h3⟩ | h2
  · exact hs a m0 c e h2 h3 hn
  · rw [h2] at hn ⊢
    exact h1 hn

theorem reachable_released_inactive {K L : Type} (arq : ikcp_t K) (ev : event_loop_t L)
    (s : rudp_impl_t K L) (h : reachable arq ev s) : released_inactive s := by
  induction h with
  | init s h0 =>
    intro a m c e hm
    rw [h0] at hm
    simp at hm
  | by_add s addr channel inactive_timeout loop _ ih =>
    cases hf : find s addr channel with
    | some ep =>
      have he : add_connection arq s addr channel inactive_timeout loop = s := by
        simp [add_connection, hf]
      rw [he]
      exact ih
    | none =>
      intro a m c e hm hc hn
      have hl := add_connection_live arq s addr channel inactive_timeout loop hf a m c e hm hc
      rw [hn] at hl
      simp at hl
  | by_remove s cur ws addr channel _ ih =>
    cases hf : find s addr channel with
    | none =>
      have he : (remove_connection arq ev cur ws s addr channel).1 = s := by
        simp [remove_connection, hf]
      rw [he]
      exact ih
    | some ep =>
      obtain ⟨_, k, hk⟩ := find_some_lookup s addr channel ep hf
      simp only [remove_connection, hf]
      exact released_inactive_map_set s addr channel _ _ ih
        (aclose_connection_inactive arq ev s.base_time false cur ws ep s.loops (by simp [hk]))
  | by_aclose s fast_close cur ws addr channel ep _ hf ih =>
    obtain ⟨_, k, hk⟩ := find_some_lookup s addr channel ep hf
    exact released_inactive_map_set s addr channel _ _ ih
      (aclose_connection_inactive arq ev s.base_time fast_close cur ws ep s.loops
        (by simp [hk]))
  | by_resume s cur ws addr channel ep _ hf _ ih =>
    obtain ⟨_, k, hk⟩ := find_some_lookup s addr channel ep hf
    exact released_inactive_map_set s addr channel _ _ ih
      (aclose_connection_inactive arq ev s.base_time false cur ws
        { ep with is_closing := false } s.loops (by simp [hk]))
  | by_close_all_peer s current _ _ =>
    intro a m c e hm
    simp [close_all_peer] at hm
  | by_close s current _ ih =>
    cases hs : s.socket with
    | none =>
      have he : close ev current s = s := by simp [close, hs]
      rw [he]
      exact ih
    | some fd =>
      intro a m c e hm
      simp [close, hs, close_all_peer] at hm

theorem closed_impl_reachable : reachable window_arq timer_store_loop closed_impl := by
  have h0 : open_impl = add_connection window_arq fresh_impl 1 7 1000000 0 := by decide
  have h1 : reachable window_arq timer_store_loop open_impl := by
    rw [h0]
    exact reachable.by_add fresh_impl 1 7 1000000 0 (reachable.init fresh_impl rfl)
  exact reachable.by_remove open_impl 5000 [] 1 7 h1

/-- C13, counterexample: the sample multiplexer after `add_connection(1, 7)`
and a `remove_connection(1, 7)` that has returned is a reachable state, and
its map still holds the entry for (1, 7), with the ARQ state released. -/
theorem closed_endpoint_stays_registered :
    reachable window_arq timer_store_loop closed_impl ∧
    (remove_connection window_arq timer_store_loop 5000 [] open_impl 1 7).2 = true ∧
    closed_impl.user_map.map (fun p => (p.1, p.2.map (fun q => (q.1, q.2.ikcp.isSome))))
      = [(1, [(7, false)])] ∧
    (lookup closed_impl.user_map 1 7).map (fun e => e.ikcp) = some none :=
  ⟨closed_impl_reachable, by decide, by decide, by decide⟩

/-- C13 as amended.  In every state reachable through `add_connection`,
`remove_connection` / `aclose_connection`, `close_all_peer` and `close`, an
endpoint of the map whose ARQ state has been released has its closing flag set
and no pending timer handle, and `find` never yields an endpoint whose ARQ
state has been released.  Releasing the ARQ state through `remove_connection`
does not remove the entry: it stays in the map with `ikcp` null.  The map
holds no endpoint with a released ARQ state right after an `add_connection`
that creates an endpoint (its sweep erases them), after `close_all_peer`, and
after `close` on a multiplexer that holds its socket (they clear the map). -/
theorem registry_invariant {K L : Type} (arq : ikcp_t K) (ev : event_loop_t L)
    (s : rudp_impl_t K L) (h : reachable arq ev s) :
    released_inactive s ∧
    (∀ a c e, find s a c = some e → e.ikcp ≠ none) ∧
    (∀ cur ws addr channel ep, find s addr channel = some ep → ep.is_closing = false →
      (remove_connection arq ev cur ws s addr channel).2 = true →
      ∃ ep1, lookup (remove_connection arq ev cur ws s addr channel).1.user_map addr channel
          = some ep1 ∧ ep1.ikcp = none) ∧
    (∀ addr channel inactive_timeout loop, find s addr channel = none →
      ∀ a m c e, (a, m) ∈ (add_connection arq s addr channel inactive_timeout loop).user_map →
        (c, e) ∈ m → e.ikcp ≠ none) ∧
    (∀ current, (close_all_peer ev current s).user_map = []) ∧
    (∀ current, s.socket ≠ none → (close ev current s).user_map = []) := by
  refine ⟨reachable_released_inactive arq ev s h, ?_, ?_, ?_, ?_, ?_⟩
  · intro a c e hf hn
    obtain ⟨_, k, hk⟩ := find_some_lookup s a c e hf
    rw [hn] at hk
    simp at hk
  · intro cur ws addr channel ep hf hc hr
    have hl := (find_some_lookup s addr channel ep hf).1
    simp only [remove_connection, hf] at hr ⊢
    exact ⟨_, lookup_map_set_same s.user_map addr channel ep _ hl,
      (aclose_connection_returned arq ev s.base_time false cur ws ep s.loops hc hr).1⟩
  · intro addr channel inactive_timeout loop hf a m c e hm hc hn
    have hl := add_connection_live arq s addr channel inactive_timeout loop hf a m c e hm hc
    rw [hn] at hl
    simp at hl
  · intro current
    rfl
  · intro current hs
    cases hsock : s.socket with
    | none => exact absurd hsock hs
    | some fd => simp [close, hsock, close_all_peer]

/-- Witness of C13 as amended: the sample multiplexer after
`add_connection(1, 7)` and `remove_connection(1, 7)` is reachable; its
released endpoint has the closing flag set and no pending timer handle, and
`find(1, 7)` yields nothing. -/
theorem registry_invariant_witness :
    reachable window_arq timer_store_loop closed_impl ∧
    released_inactive closed_impl ∧
    (∀ a c e, find closed_impl a c = some e → e.ikcp ≠ none) :=
  ⟨closed_impl_reachable,
   (registry_invariant window_arq timer_store_loop closed_impl closed_impl_reachable).1,
   (registry_invariant window_arq timer_store_loop closed_impl closed_impl_reachable).2.1⟩

end net
